import Mathlib

/-!
# Register decoding of the DDS238 / DTS238 meter dumpers

A shallow embedding of `dds238_dump.cpp` (single-phase meter, poll loop) and
`dts238_dump.cpp` (three-phase meter, single shot), with the properties of
their register decoding, text output and control flow.

Conventions of the embedding:
* a `uint16_t` register is a `Fin 65536`; other machine integers are `Int` or
  `Nat` with the wrap-around written out;
* the register buffer `tab_reg` is the list of registers delivered by the last
  successful read, and indexing it outside that list yields `none`;
* the two helpers `u32_val`, `i32_val` and `format_float` are textually the
  same in both programs, so one definition stands for both;
* `float` is IEEE 754 binary32 and expressions of type `float` are evaluated in
  that format; `printf` converts exactly, rounding to nearest with ties to even;
* texts are `String`s, a key being a C string (no NUL inside), and in string
  literals the braces are written `\x7b` and `\x7d`.
-/

namespace MeterDump

/-! ## Machine integers -/

/-- One holding register, a `uint16_t`. -/
abbrev Reg := Fin 65536

/-- The value an `int` (32-bit two's complement) holds after an operation whose
mathematical result is `x`. -/
def wrap_int (x : Int) : Int := (x + 2147483648) % 4294967296 - 2147483648

/-- Conversion of an `int` to `uint32_t`. -/
def to_uint32 (x : Int) : Nat := (x % 4294967296).toNat

/-- The cast `(int16_t)r` of a register. -/
def to_int16 (r : Reg) : Int := if r.val < 32768 then (r.val : Int) else (r.val : Int) - 65536

/-- The expression `a << 16` on `int`, wrapping as on two's-complement targets. -/
def shl16 (a : Int) : Int := wrap_int (a * 65536)

/-- The expression `a | b` on `int`: the bitwise or of the two 32-bit patterns,
read back as a signed value. -/
def int_or (a b : Int) : Int := wrap_int ((to_uint32 a ||| to_uint32 b : Nat) : Int)

/-- The function `u32_val`: `(tab_reg[ofs] << 16) + tab_reg[ofs + 1]`, computed on
`int` after integer promotion and returned as `uint32_t`. -/
def u32_val (tab_reg : List Reg) (ofs : Nat) : Option Nat := do
  let hi ← tab_reg[ofs]?
  let lo ← tab_reg[ofs + 1]?
  pure (to_uint32 (wrap_int (shl16 (hi.val : Int) + (lo.val : Int))))

/-- The function `i32_val`: `(tab_reg[ofs] << 16) | tab_reg[ofs + 1]`, computed on
`int` after integer promotion and returned as `int32_t`. -/
def i32_val (tab_reg : List Reg) (ofs : Nat) : Option Int := do
  let hi ← tab_reg[ofs]?
  let lo ← tab_reg[ofs + 1]?
  pure (wrap_int (int_or (shl16 (hi.val : Int)) (lo.val : Int)))

/-! ## Binary32 arithmetic

`format_float` takes its value and its scale as `float` and multiplies them in
`float`.  A finite binary32 number is kept as sign, integer significand and
binary exponent; every operation computes the exact result and rounds it once,
to nearest with ties to even, as IEEE 754 prescribes. -/

/-- Number of significant bits of `n`, found with at most `fuel` halvings. -/
def bitlen_aux : Nat → Nat → Nat
  | 0, _ => 0
  | fuel + 1, n => if n = 0 then 0 else bitlen_aux fuel (n / 2) + 1

/-- Number of significant bits of `n` (0 for 0): `n` halvings always suffice. -/
def bitlen (n : Nat) : Nat := bitlen_aux n n

/-- A finite `float`, the number `(-1)^neg * m * 2^e`. -/
structure Flt where
  neg : Bool
  m : Nat
  e : Int
deriving DecidableEq

/-- The result of a `float` operation on finite operands: finite, or an infinity
after overflow. -/
inductive F32 where
  | fin (x : Flt)
  | inf (neg : Bool)
deriving DecidableEq

/-- Rounding of the exact value `m * 2^e` to the binary32 grid: 24 significant
bits, spacing never below `2^-149`, nearest value, ties to the even significand.
`k` low bits are dropped. -/
def round_to_24 (neg : Bool) (m : Nat) (e : Int) : Flt :=
  let k : Nat := max (bitlen m - 24) (-149 - e).toNat
  let q := m / 2 ^ k
  let r := m % 2 ^ k
  let q' := if 2 ^ k < 2 * r ∨ (2 * r = 2 ^ k ∧ q % 2 = 1) then q + 1 else q
  ⟨neg, q', e + k⟩

/-- Whether a rounded magnitude reaches `2^128`, beyond the largest finite `float`. -/
def overflows (x : Flt) : Bool := decide (129 ≤ (bitlen x.m : Int) + x.e)

/-- Conversion of an integer of at most 32 bits to `float` (implicit at the call
sites of `format_float`, whose parameter `value` is a `float`). -/
def int_to_float (n : Int) : Flt := round_to_24 (decide (n < 0)) n.natAbs 0

/-- The product `a * b` in `float`. -/
def f32_mul (a b : Flt) : F32 :=
  let r := round_to_24 (xor a.neg b.neg) (a.m * b.m) (a.e + b.e)
  if overflows r then F32.inf r.neg else F32.fin r

/-- The literal `0.1f`, bit pattern 0x3DCCCCCD. -/
def f_0_1 : Flt := ⟨false, 13421773, -27⟩

/-- The literal `0.01f`, bit pattern 0x3C23D70A. -/
def f_0_01 : Flt := ⟨false, 5368709, -29⟩

/-- The literal `0.001f`, bit pattern 0x3A83126F. -/
def f_0_001 : Flt := ⟨false, 8589935, -33⟩

/-! ## Text output -/

/-- The magnitude of `x` in thousandths, rounded to the nearest integer with ties
to even: the digits `%.3f` prints. -/
def thousandths (x : Flt) : Nat :=
  if 0 ≤ x.e then x.m * 2 ^ x.e.toNat * 1000
  else
    let d := 2 ^ (-x.e).toNat
    let n := x.m * 1000
    let q := n / d
    let r := n % d
    if d < 2 * r ∨ (2 * r = d ∧ q % 2 = 1) then q + 1 else q

/-- Two decimal digits, zero padded. -/
def pad2 (n : Nat) : String :=
  String.mk [Nat.digitChar (n / 10 % 10), Nat.digitChar (n % 10)]

/-- Three decimal digits, zero padded. -/
def pad3 (n : Nat) : String :=
  String.mk [Nat.digitChar (n / 100 % 10), Nat.digitChar (n / 10 % 10), Nat.digitChar (n % 10)]

/-- The text of a number given by its sign and its magnitude in thousandths:
integer part, a point, three digits. -/
def decimal3 (neg : Bool) (t : Nat) : String :=
  (if neg then "-" else "") ++ toString (t / 1000) ++ "." ++ pad3 (t % 1000)

/-- The conversion `%.3f` of `printf`. -/
def fmt3 : F32 → String
  | .fin x => decimal3 x.neg (thousandths x)
  | .inf neg => if neg then "-inf" else "inf"

/-- The function `format_float`.  `sprintf` writes `"key":number` and a NUL into
`buff[256]`, `strcat` appends the comma; the result is `none` when the text does
not fit the buffer. -/
def format_float (key : String) (value : Flt) (coef : Flt) (add_comma : Bool := true) :
    Option String :=
  let fv := f32_mul coef value
  let buff := "\"" ++ key ++ "\":" ++ fmt3 fv
  let cb := buff.utf8ByteSize
  if add_comma then
    if cb + 1 < 256 then some (buff ++ ",") else none
  else
    if cb < 256 then some buff else none

/-! ## Clock -/

/-- The fields of `struct tm` that the time stamp uses, as `localtime` delivers
them for a clock not before 1900. -/
structure Tm where
  tm_year : Fin 2147483648
  tm_mon : Fin 12
  tm_mday : Fin 32
  tm_hour : Fin 24
  tm_min : Fin 60
  tm_sec : Fin 61

/-- The call `strftime(ts, 32, "%Y-%m-%d %H:%M:%S", localtime(&t))`. -/
def strftime_ts (t : Tm) : String :=
  toString (t.tm_year.val + 1900) ++ "-" ++ pad2 (t.tm_mon.val + 1) ++ "-" ++ pad2 t.tm_mday.val
    ++ " " ++ pad2 t.tm_hour.val ++ ":" ++ pad2 t.tm_min.val ++ ":" ++ pad2 t.tm_sec.val

/-! ## The meter and the file system -/

/-- The meter on the bus during one request sequence: the content of its holding
registers, and the start addresses at which a read request fails. -/
structure Meter where
  holding : Nat → Reg
  fails : Nat → Bool

/-- The call `modbus_read_registers(ctx, addr, nb, tab_reg)`: `none` stands for the
result -1, otherwise the `nb` registers now in `tab_reg`. -/
def modbus_read_registers (m : Meter) (addr nb : Nat) : Option (List Reg) :=
  if m.fails addr then none else some ((List.range nb).map fun i => m.holding (addr + i))

/-- The files by path; `none` is an absent file.  The content recorded is the one
on disk once the streams have been flushed. -/
abbrev FS := String → Option String

/-- The file system with the file at `path` replaced. -/
def FS.set (fs : FS) (path : String) (content : Option String) : FS :=
  fun p => if p = path then content else fs p

/-- The public snapshot path. -/
def snapshot_path : String := "/tmp/em_data.json"

/-- The temporary path of the single-meter program. -/
def temp_path : String := "/tmp/em_data_last.json"

/-! ## Single-meter program (`dds238_dump.cpp`) -/

/-- Sequencing of two steps of which the first may be undefined. -/
@[noinline] def and_then {α β : Type} (x : Option α) (f : α → Option β) : Option β :=
  match x with
  | none => none
  | some a => f a

/-- The statement `fputs(format_float(key, value, coef), json)` for an integer
`value`: the stream content after it. -/
def fputs_float (json : String) (key : String) (value : Int) (coef : Flt) : Option String :=
  and_then (format_float key (int_to_float value) coef) fun s => some (json ++ s)

set_option linter.unusedVariables false in
/-- The text `ask_meter` writes to the stream `json` between `fopen` and `fclose`,
for the registers just read and the time stamp `ts`. -/
def ask_meter_text (tab_reg : List Reg) (ts : String) : Option String :=
  let json : String := "\x7b"
  and_then (u32_val tab_reg 0) fun v =>
  and_then (fputs_float json "total_energy" v f_0_01) fun json =>
  and_then (u32_val tab_reg 0x08) fun v =>
  and_then (fputs_float json "reversing_energy" v f_0_01) fun json =>
  and_then (u32_val tab_reg 0x0a) fun v =>
  and_then (fputs_float json "forward_energy" v f_0_01) fun json =>
  let ofs : Nat := 0x0c
  and_then tab_reg[ofs]? fun r =>
  let ofs : Nat := ofs + 1
  and_then (fputs_float json "voltage" r.val f_0_1) fun json =>
  and_then tab_reg[ofs]? fun r =>
  let ofs : Nat := ofs + 1
  and_then (fputs_float json "current" r.val f_0_01) fun json =>
  and_then tab_reg[ofs]? fun r =>
  let ofs : Nat := ofs + 1
  and_then (fputs_float json "active_power" r.val f_0_001) fun json =>
  and_then tab_reg[ofs]? fun r =>
  let ofs : Nat := ofs + 1
  and_then (fputs_float json "reactive_power" (to_int16 r) f_0_001) fun json =>
  and_then tab_reg[ofs]? fun r =>
  let ofs : Nat := ofs + 1
  and_then (fputs_float json "power_factor" r.val f_0_001) fun json =>
  and_then tab_reg[0x11]? fun r =>
  and_then (fputs_float json "frequency" r.val f_0_01) fun json =>
  let json : String := json ++ ("\"ts\":\"" ++ ts ++ "\"")
  let json : String := json ++ "\x7d\n"
  some json

/-- What one call of `ask_meter` meets: the clock, the meter, and whether `fopen`
and `rename` succeed. -/
structure Poll where
  tm : Tm
  meter : Meter
  fopen_ok : Bool
  rename_ok : Bool

/-- The function `ask_meter`: its return value and the file system it leaves.  A
failed read or a failed `fopen` returns -1 before any file is touched; otherwise
the text goes to the temporary file, the snapshot is unlinked, and the result
is that of `rename`. -/
def ask_meter (p : Poll) (fs : FS) : Option (Int × FS) :=
  let ts := strftime_ts p.tm
  match modbus_read_registers p.meter 0 0x15 with
  | none => some (-1, fs)
  | some tab_reg =>
    if p.fopen_ok then
      and_then (ask_meter_text tab_reg ts) fun text =>
      let fs := fs.set temp_path (some text)
      let fs := fs.set snapshot_path none
      if p.rename_ok then
        some (0, (fs.set snapshot_path (some text)).set temp_path none)
      else some (-1, fs)
    else some (-1, fs)

/-- The body of the `do … while` loop of `main` after the call of `ask_meter`:
the new value of `errors`. -/
def count_errors (errors : Int) (res : Int) : Int :=
  if res < 0 then errors + 1 else 0

/-- The loop `do { … } while (loop_mode && errors < 10)` of `main`, run on the values
the successive calls of `ask_meter` return.  The result lists `errors` after each
cycle performed and tells whether the loop condition ended the loop (`false`:
the given results ran out while the loop was still going). -/
def poll_loop (loop_mode : Bool) : List Int → Int → List Int × Bool
  | [], _ => ([], false)
  | res :: rest, errors =>
    let errors := count_errors errors res
    if loop_mode && decide (errors < 10) then
      let run := poll_loop loop_mode rest errors
      (errors :: run.1, run.2)
    else ([errors], true)

/-- The function `main` of the single-meter program: the exit status, `none` while
the loop has not ended on the given results.  The flags tell whether
`modbus_new_rtu`, `modbus_set_slave` and `modbus_connect` succeed. -/
def main_dds (loop_mode new_rtu_ok set_slave_ok connect_ok : Bool) (results : List Int) :
    Option Int :=
  if !new_rtu_ok then some (-1)
  else if !set_slave_ok then some (-1)
  else if !connect_ok then some (-1)
  else
    let run := poll_loop loop_mode results 0
    if run.2 then some 0 else none

/-! ## Three-phase program (`dts238_dump.cpp`) -/

/-- The table `baud_rates`. -/
def baud_rates : List String :=
  ["unknown", "9600", "4800", "2400", "1200", "5???", "6???", "7???"]

/-- The two `fprintf` calls that print the members made from the register `flags`:
`baud_rates[flags & 7]` with `%s` and `flags >> 8` with `%d`. -/
def fprintf_flags (json : String) (flags : Reg) : Option String :=
  and_then baud_rates[flags.val &&& 7]? fun rate =>
  let json : String := json ++ ("\"baud_rate\":\"" ++ rate ++ "\",")
  let json : String := json ++ ("\"comm_addr\":" ++ toString (flags.val >>> 8) ++ ",")
  some json

/-- The branch `if (0x00 == start)` of the read loop. -/
def decode_00 (tab_reg : List Reg) (json : String) : Option String :=
  and_then (u32_val tab_reg 0) fun v =>
  and_then (fputs_float json "total_energy" v f_0_01) fun json =>
  and_then (u32_val tab_reg 0x08) fun v =>
  and_then (fputs_float json "reversing_energy" v f_0_01) fun json =>
  and_then (u32_val tab_reg 0x0a) fun v =>
  and_then (fputs_float json "forward_energy" v f_0_01) fun json =>
  let ofs : Nat := 0x11
  and_then tab_reg[ofs]? fun r =>
  and_then (fputs_float json "frequency" r.val f_0_01) fun json =>
  and_then tab_reg[0x15]? fun flags =>
  fprintf_flags json flags

set_option linter.unusedVariables false in
/-- The branch `if (0x80 == start)` of the read loop; `ofs` is 0 on entry. -/
def decode_80 (tab_reg : List Reg) (json : String) : Option String :=
  let ofs : Nat := 0
  and_then tab_reg[ofs]? fun r =>
  let ofs : Nat := ofs + 1
  and_then (fputs_float json "voltage_A" r.val f_0_1) fun json =>
  and_then tab_reg[ofs]? fun r =>
  let ofs : Nat := ofs + 1
  and_then (fputs_float json "voltage_B" r.val f_0_1) fun json =>
  and_then tab_reg[ofs]? fun r =>
  let ofs : Nat := ofs + 1
  and_then (fputs_float json "voltage_C" r.val f_0_1) fun json =>
  and_then tab_reg[ofs]? fun r =>
  let ofs : Nat := ofs + 1
  and_then (fputs_float json "current_A" r.val f_0_01) fun json =>
  and_then tab_reg[ofs]? fun r =>
  let ofs : Nat := ofs + 1
  and_then (fputs_float json "current_B" r.val f_0_01) fun json =>
  and_then tab_reg[ofs]? fun r =>
  let ofs : Nat := ofs + 1
  and_then (fputs_float json "current_C" r.val f_0_01) fun json =>
  let ofs : Nat := 6
  and_then (i32_val tab_reg ofs) fun v =>
  and_then (fputs_float json "power" v f_0_001) fun json =>
  let ofs : Nat := ofs + 2
  and_then tab_reg[ofs]? fun r =>
  let ofs : Nat := ofs + 1
  and_then (fputs_float json "power_A" (to_int16 r) f_0_001) fun json =>
  and_then tab_reg[ofs]? fun r =>
  let ofs : Nat := ofs + 1
  and_then (fputs_float json "power_B" (to_int16 r) f_0_001) fun json =>
  and_then tab_reg[ofs]? fun r =>
  let ofs : Nat := ofs + 1
  and_then (fputs_float json "power_C" (to_int16 r) f_0_001) fun json =>
  and_then (i32_val tab_reg ofs) fun v =>
  and_then (fputs_float json "rpower" v f_0_001) fun json =>
  let ofs : Nat := ofs + 2
  and_then tab_reg[ofs]? fun r =>
  let ofs : Nat := ofs + 1
  and_then (fputs_float json "rpower_A" (to_int16 r) f_0_001) fun json =>
  and_then tab_reg[ofs]? fun r =>
  let ofs : Nat := ofs + 1
  and_then (fputs_float json "rpower_B" (to_int16 r) f_0_001) fun json =>
  and_then tab_reg[ofs]? fun r =>
  let ofs : Nat := ofs + 1
  and_then (fputs_float json "rpower_C" (to_int16 r) f_0_001) fun json =>
  and_then (u32_val tab_reg ofs) fun v =>
  and_then (fputs_float json "ap_power" v f_0_001) fun json =>
  let ofs : Nat := ofs + 2
  and_then tab_reg[ofs]? fun r =>
  let ofs : Nat := ofs + 1
  and_then (fputs_float json "ap_power_A" r.val f_0_001) fun json =>
  and_then tab_reg[ofs]? fun r =>
  let ofs : Nat := ofs + 1
  and_then (fputs_float json "ap_power_B" r.val f_0_001) fun json =>
  and_then tab_reg[ofs]? fun r =>
  let ofs : Nat := ofs + 1
  and_then (fputs_float json "ap_power_C" r.val f_0_001) fun json =>
  let ofs : Nat := ofs + 2
  let ofs : Nat := 0x15
  and_then tab_reg[ofs]? fun r =>
  let ofs : Nat := ofs + 1
  and_then (fputs_float json "pfact" r.val f_0_001) fun json =>
  and_then tab_reg[ofs]? fun r =>
  let ofs : Nat := ofs + 1
  and_then (fputs_float json "pfact_A" r.val f_0_001) fun json =>
  and_then tab_reg[ofs]? fun r =>
  let ofs : Nat := ofs + 1
  and_then (fputs_float json "pfact_B" r.val f_0_001) fun json =>
  and_then tab_reg[ofs]? fun r =>
  let ofs : Nat := ofs + 1
  and_then (fputs_float json "pfact_C" r.val f_0_001) fun json =>
  some json

/-- The `else` branch of the read loop after a successful read at `start`: the
stream content after the members of that window. -/
def decode_window (start : Nat) (tab_reg : List Reg) (json : String) : Option String :=
  if 0x00 = start then decode_00 tab_reg json
  else if 0x80 = start then decode_80 tab_reg json
  else some json

/-- State of the read loop: whether a read failed, the stream content, and the
reads requested so far as pairs of start address and register count. -/
structure LoopOut where
  failed : Bool
  json : String
  reads : List (Nat × Nat)

/-- The loop `for (start = 0; start < 192; start += 128)` from the iteration at
`start` on. -/
def read_loop (m : Meter) (start : Nat) (json : String) (reads : List (Nat × Nat)) :
    Option LoopOut :=
  if _h : start < 192 then
    let reads := reads ++ [(start, 0x20)]
    match modbus_read_registers m start 0x20 with
    | none => some ⟨true, json, reads⟩
    | some tab_reg =>
      and_then (decode_window start tab_reg json) fun json =>
      read_loop m (start + 128) json reads
  else some ⟨false, json, reads⟩
termination_by 192 - start

/-- What one run of the three-phase program meets. -/
structure Run3 where
  new_rtu_ok : Bool
  set_slave_ok : Bool
  connect_ok : Bool
  fopen_ok : Bool
  meter : Meter
  tm : Tm

/-- What a run of the three-phase program leaves: exit status, files, and the
register reads it requested. -/
structure Outcome where
  status : Int
  fs : FS
  reads : List (Nat × Nat)

/-- The function `main` of the three-phase program.  The snapshot is opened with
mode "w" before the read loop, and a failed read returns at once; the stream
is flushed to the file when the process exits. -/
def main_dts (env : Run3) (fs : FS) : Option Outcome :=
  if !env.new_rtu_ok then some ⟨-1, fs, []⟩
  else if !env.set_slave_ok then some ⟨-1, fs, []⟩
  else if !env.connect_ok then some ⟨-1, fs, []⟩
  else if !env.fopen_ok then some ⟨-1, fs, []⟩
  else
    let json : String := "\x7b"
    and_then (read_loop env.meter 0 json []) fun out =>
    if out.failed then some ⟨-1, fs.set snapshot_path (some out.json), out.reads⟩
    else
      let ts := strftime_ts env.tm
      let json : String := out.json ++ ("\"ts\":\"" ++ ts ++ "\"")
      let json : String := json ++ "\x7d\n"
      some ⟨0, fs.set snapshot_path (some json), out.reads⟩

/-! ## The specification's reading of the documents -/

/-- Storage of a field: 16-bit unsigned or signed, 32-bit word pair unsigned or
signed. -/
inductive Width where
  | u16
  | s16
  | u32
  | s32

/-- A field descriptor: name, register offset, storage and scale. -/
structure Field where
  key : String
  ofs : Nat
  width : Width
  scale : Flt

/-- The raw integer of a field as the specification defines it: the register
itself, its two's-complement reading, the pair `high * 65536 + low`, or the
two's-complement reading of that pair. -/
def spec_raw (f : Field) (tab_reg : List Reg) : Option Int :=
  match f.width with
  | .u16 => tab_reg[f.ofs]?.map fun r => (r.val : Int)
  | .s16 => tab_reg[f.ofs]?.map fun r =>
      if r.val < 32768 then (r.val : Int) else (r.val : Int) - 65536
  | .u32 => tab_reg[f.ofs]?.bind fun hi => tab_reg[f.ofs + 1]?.map fun lo =>
      (hi.val : Int) * 65536 + lo.val
  | .s32 => tab_reg[f.ofs]?.bind fun hi => tab_reg[f.ofs + 1]?.map fun lo =>
      if hi.val < 32768 then (hi.val : Int) * 65536 + lo.val
      else (hi.val : Int) * 65536 + lo.val - 4294967296

/-- The JSON member of a field: the formatter's text for its raw integer and scale,
with the separating comma. -/
def spec_member (tab_reg : List Reg) (f : Field) : Option String :=
  (spec_raw f tab_reg).bind fun raw => format_float f.key (int_to_float raw) f.scale true

/-- The members of a list of fields, in order. -/
def spec_members (fields : List Field) (tab_reg : List Reg) : Option (List String) :=
  fields.mapM (spec_member tab_reg)

/-- The fields of the single-meter document, in schema order. -/
def spec_dds_fields : List Field :=
  [⟨"total_energy", 0x00, .u32, f_0_01⟩, ⟨"reversing_energy", 0x08, .u32, f_0_01⟩,
   ⟨"forward_energy", 0x0a, .u32, f_0_01⟩, ⟨"voltage", 0x0c, .u16, f_0_1⟩,
   ⟨"current", 0x0d, .u16, f_0_01⟩, ⟨"active_power", 0x0e, .u16, f_0_001⟩,
   ⟨"reactive_power", 0x0f, .s16, f_0_001⟩, ⟨"power_factor", 0x10, .u16, f_0_001⟩,
   ⟨"frequency", 0x11, .u16, f_0_01⟩]

/-- The formatted fields of the window at 0x00 of the three-phase document. -/
def spec_dts_fields_00 : List Field :=
  [⟨"total_energy", 0x00, .u32, f_0_01⟩, ⟨"reversing_energy", 0x08, .u32, f_0_01⟩,
   ⟨"forward_energy", 0x0a, .u32, f_0_01⟩, ⟨"frequency", 0x11, .u16, f_0_01⟩]

/-- The fields of the window at 0x80 of the three-phase document. -/
def spec_dts_fields_80 : List Field :=
  [⟨"voltage_A", 0x00, .u16, f_0_1⟩, ⟨"voltage_B", 0x01, .u16, f_0_1⟩,
   ⟨"voltage_C", 0x02, .u16, f_0_1⟩, ⟨"current_A", 0x03, .u16, f_0_01⟩,
   ⟨"current_B", 0x04, .u16, f_0_01⟩, ⟨"current_C", 0x05, .u16, f_0_01⟩,
   ⟨"power", 0x06, .s32, f_0_001⟩, ⟨"power_A", 0x08, .s16, f_0_001⟩,
   ⟨"power_B", 0x09, .s16, f_0_001⟩, ⟨"power_C", 0x0a, .s16, f_0_001⟩,
   ⟨"rpower", 0x0b, .s32, f_0_001⟩, ⟨"rpower_A", 0x0d, .s16, f_0_001⟩,
   ⟨"rpower_B", 0x0e, .s16, f_0_001⟩, ⟨"rpower_C", 0x0f, .s16, f_0_001⟩,
   ⟨"ap_power", 0x10, .u32, f_0_001⟩, ⟨"ap_power_A", 0x12, .u16, f_0_001⟩,
   ⟨"ap_power_B", 0x13, .u16, f_0_001⟩, ⟨"ap_power_C", 0x14, .u16, f_0_001⟩,
   ⟨"pfact", 0x15, .u16, f_0_001⟩, ⟨"pfact_A", 0x16, .u16, f_0_001⟩,
   ⟨"pfact_B", 0x17, .u16, f_0_001⟩, ⟨"pfact_C", 0x18, .u16, f_0_001⟩]

/-- The number of consecutive failures (negative results) at the end of a sequence
of poll results. -/
def consecutive_failures (results : List Int) : Nat :=
  (results.reverse.takeWhile fun r => decide (r < 0)).length

/-! ## Inputs used by the examples -/

/-- A meter whose every read request fails. -/
def dead_meter : Meter := ⟨fun _ => 0, fun _ => true⟩

/-- A poll at a fixed time against the dead meter. -/
def dead_poll : Poll := ⟨⟨126, 9, 30, 12, 0, 0⟩, dead_meter, true, true⟩

/-! ## Characters -/

/-- The ten digit characters. -/
def digit_chars : List Char := ['0', '1', '2', '3', '4', '5', '6', '7', '8', '9']

/-- The text of a JSON member as the formatter lays it out: quoted key, colon,
number, and the comma when asked for. -/
def member_text (key number : String) (add_comma : Bool) : String :=
  "\"" ++ key ++ "\":" ++ number ++ (if add_comma then "," else "")

/-- The formatter as the specification words it: the member for `raw * num / den`
rounded to three decimals, for a scale given as the fraction `num / den`. -/
def spec_format_float (key : String) (raw : Int) (num den : Nat) (add_comma : Bool) : String :=
  member_text key
    (decimal3 (decide (raw < 0)) ((2 * (raw.natAbs * num * 1000) + den) / (2 * den))) add_comma

/-! ## JSON texts -/

/-- Whether the characters form a JSON number without exponent: an optional
minus, an integer part without leading zero, and an optional fraction of at
least one digit. -/
def is_json_number (cs : List Char) : Bool :=
  let body := match cs with
    | '-' :: t => t
    | _ => cs
  let ip := body.takeWhile Char.isDigit
  let rest := body.dropWhile Char.isDigit
  (ip == ['0'] || (!ip.isEmpty && ip.head? != some '0')) &&
    (match rest with
     | [] => true
     | '.' :: fr => !fr.isEmpty && fr.all Char.isDigit
     | _ => false)

/-- Whether a character can stand unescaped inside a JSON string. -/
def json_plain_char (c : Char) : Bool := c != '"' && c != '\\' && decide (0x20 ≤ c.toNat)

/-- Whether all the characters can stand unescaped inside a JSON string. -/
def is_json_plain (cs : List Char) : Bool := cs.all json_plain_char

/-- A JSON number, or a JSON string without escapes. -/
def JsonScalar (v : String) : Prop :=
  is_json_number v.data = true ∨
    ∃ body : String, v = "\"" ++ body ++ "\"" ∧ is_json_plain body.data = true

/-- The text is a flat JSON object with exactly the given keys, in order, each with
a scalar value and no white space inside, followed by a newline. -/
def FlatJson (keys : List String) (text : String) : Prop :=
  (∀ k ∈ keys, is_json_plain k.data = true) ∧
    ∃ vals : List String, vals.length = keys.length ∧ (∀ v ∈ vals, JsonScalar v) ∧
      text = "\x7b" ++
        ",".intercalate (List.zipWith (fun k v => "\"" ++ k ++ "\":" ++ v) keys vals) ++ "\x7d\n"

/-- The keys of the single-meter document. -/
def dds_keys : List String :=
  ["total_energy", "reversing_energy", "forward_energy", "voltage", "current", "active_power",
   "reactive_power", "power_factor", "frequency", "ts"]

/-- The last register a field occupies. -/
def spec_last_reg (f : Field) : Nat :=
  match f.width with
  | .u16 => f.ofs
  | .s16 => f.ofs
  | .u32 => f.ofs + 1
  | .s32 => f.ofs + 1

/-- The keys of the formatted members of the window at 0x00, in schema order. -/
def dts_keys_00 : List String :=
  ["total_energy", "reversing_energy", "forward_energy", "frequency"]

/-- The keys of the members of the window at 0x80, in schema order. -/
def dts_keys_80 : List String :=
  ["voltage_A", "voltage_B", "voltage_C", "current_A", "current_B", "current_C",
   "power", "power_A", "power_B", "power_C", "rpower", "rpower_A", "rpower_B", "rpower_C",
   "ap_power", "ap_power_A", "ap_power_B", "ap_power_C", "pfact", "pfact_A", "pfact_B", "pfact_C"]

/-- A text is the member with the given key: quoted key, colon, some number text,
comma. -/
def is_member_of (key : String) (s : String) : Prop :=
  ∃ number : String, s = member_text key number true

/-- A time of day used by the examples: 2026-10-30 12:00:00. -/
def sample_tm : Tm := ⟨126, 9, 30, 12, 0, 0⟩

/-- A window of 21 registers used by the examples. -/
def sample_window : List Reg :=
  [0, 12345, 0, 0, 0, 0, 0, 0, 0, 1, 0, 12344, 2300, 150, 345, 65436, 998, 5000, 0, 0, 0]

/-- A meter that answers every request, with the flags register 0x0105 at
address 0x15 and zero elsewhere. -/
def sample_meter : Meter := ⟨fun a => if a = 0x15 then 0x0105 else 0, fun _ => false⟩

/-- A meter that answers the read at 0x00 and fails the read at 0x80. -/
def half_dead_meter : Meter := ⟨fun _ => 0, fun a => decide (a = 0x80)⟩

/-- A file system whose snapshot holds an earlier document. -/
def old_fs : FS := fun p => if p = snapshot_path then some "OLD" else none

/-! ## Properties of the 32-bit helpers -/

theorem u32_word (hi lo : Nat) (hh : hi < 65536) (hl : lo < 65536) :
    to_uint32 (wrap_int (shl16 (hi : Int) + (lo : Int))) = hi * 65536 + lo := by
  unfold to_uint32 wrap_int shl16 wrap_int
  omega

theorem i32_word (hi lo : Nat) (hh : hi < 65536) (hl : lo < 65536) :
    wrap_int (int_or (shl16 (hi : Int)) (lo : Int)) =
      if hi < 32768 then (hi : Int) * 65536 + lo else (hi : Int) * 65536 + lo - 4294967296 := by
  have h1 : to_uint32 (shl16 (hi : Int)) = 2 ^ 16 * hi := by
    unfold to_uint32 shl16 wrap_int
    omega
  have h2 : to_uint32 (lo : Int) = lo := by
    unfold to_uint32
    omega
  have h3 : 2 ^ 16 * hi ||| lo = 2 ^ 16 * hi + lo :=
    (Nat.mul_add_lt_is_or (by simpa using hl) hi).symm
  unfold int_or
  rw [h1, h2, h3]
  unfold wrap_int
  split <;> omega

/-- C1: for every register buffer and every offset with `ofs` and `ofs + 1` inside
it, `u32_val` returns exactly `tab_reg[ofs] * 65536 + tab_reg[ofs + 1]`; the
promoted shift and the addition lose no bit, also when the high word is at
least 0x8000. -/
theorem u32_val_exact (tab_reg : List Reg) (ofs : Nat) (h : ofs + 1 < tab_reg.length) :
    u32_val tab_reg ofs =
      some ((tab_reg.get ⟨ofs, by omega⟩).val * 65536 + (tab_reg.get ⟨ofs + 1, h⟩).val) := by
  have h0 : ofs < tab_reg.length := by omega
  simp only [u32_val, List.getElem?_eq_getElem h0, List.getElem?_eq_getElem h, List.get_eq_getElem]
  simp only [Option.bind_eq_bind, Option.some_bind, Option.pure_def, Option.some.injEq]
  exact u32_word _ _ (tab_reg[ofs]).isLt (tab_reg[ofs + 1]).isLt

theorem u32_val_exact_witness :
    (0 + 1 < ([0x8001, 0xFFFF] : List Reg).length) ∧
      u32_val [0x8001, 0xFFFF] 0 = some (0x8001 * 65536 + 0xFFFF) :=
  ⟨by decide, u32_val_exact [0x8001, 0xFFFF] 0 (by decide)⟩

/-- C2: for every register buffer and every offset with `ofs` and `ofs + 1` inside
it, `i32_val` is the two's-complement reading of the pattern with high word
`tab_reg[ofs]` and low word `tab_reg[ofs + 1]`, and taken modulo 2^32 it is
`u32_val`: the `|` and the `+` build the same bit pattern. -/
theorem i32_val_twos_complement (tab_reg : List Reg) (ofs : Nat)
    (h : ofs + 1 < tab_reg.length) :
    i32_val tab_reg ofs =
        some (if (tab_reg.get ⟨ofs, by omega⟩).val < 32768
          then ((tab_reg.get ⟨ofs, by omega⟩).val : Int) * 65536 + (tab_reg.get ⟨ofs + 1, h⟩).val
          else ((tab_reg.get ⟨ofs, by omega⟩).val : Int) * 65536 + (tab_reg.get ⟨ofs + 1, h⟩).val
            - 4294967296) ∧
      (i32_val tab_reg ofs).map to_uint32 = u32_val tab_reg ofs := by
  have h0 : ofs < tab_reg.length := by omega
  have hw := i32_word _ _ (tab_reg[ofs]).isLt (tab_reg[ofs + 1]).isLt
  have hu := u32_word _ _ (tab_reg[ofs]).isLt (tab_reg[ofs + 1]).isLt
  simp only [u32_val, i32_val, List.getElem?_eq_getElem h0, List.getElem?_eq_getElem h,
    List.get_eq_getElem, Option.bind_eq_bind, Option.some_bind, Option.pure_def,
    Option.some.injEq, Option.map_some', hw, hu, true_and]
  unfold to_uint32
  split <;> omega

theorem i32_val_twos_complement_witness :
    (0 + 1 < ([0x8001, 0xFFFF] : List Reg).length) ∧
      i32_val [0x8001, 0xFFFF] 0 = some (-2147352577) ∧
      (i32_val [0x8001, 0xFFFF] 0).map to_uint32 = u32_val [0x8001, 0xFFFF] 0 :=
  ⟨by decide, by
    have h := i32_val_twos_complement [0x8001, 0xFFFF] 0 (by decide)
    exact ⟨h.1.trans (by decide), h.2⟩⟩

/-! ## The poll loop and the exit status -/

theorem consecutive_failures_snoc (pre : List Int) (res : Int) :
    consecutive_failures (pre ++ [res]) = if res < 0 then consecutive_failures pre + 1 else 0 := by
  unfold consecutive_failures
  by_cases h : res < 0 <;> simp [List.takeWhile_cons, h]

theorem count_errors_snoc (pre : List Int) (res : Int) :
    count_errors (consecutive_failures pre) res = consecutive_failures (pre ++ [res]) := by
  rw [consecutive_failures_snoc]
  unfold count_errors
  split <;> simp

theorem poll_loop_log (loop_mode : Bool) :
    ∀ (rest pre : List Int) (i : Nat) (v : Int),
      (poll_loop loop_mode rest (consecutive_failures pre)).1[i]? = some v →
        v = consecutive_failures (pre ++ rest.take (i + 1)) := by
  intro rest
  induction rest with
  | nil => intro pre i v h; simp [poll_loop] at h
  | cons res rest ih =>
    intro pre i v h
    rw [poll_loop, count_errors_snoc] at h
    split at h
    · cases i with
      | zero => simpa using h.symm
      | succ j =>
        have := ih (pre ++ [res]) j v (by simpa using h)
        simpa [List.append_assoc] using this
    · cases i with
      | zero => simpa using h.symm
      | succ j => simp at h

theorem poll_loop_length (loop_mode : Bool) :
    ∀ (rest : List Int) (errors : Int), (poll_loop loop_mode rest errors).1.length ≤ rest.length := by
  intro rest
  induction rest with
  | nil => intro errors; simp [poll_loop]
  | cons res rest ih =>
    intro errors
    rw [poll_loop]
    split
    · simpa using ih _
    · simp

theorem count_errors_le (errors res : Int) (h : errors < 10) : count_errors errors res ≤ 10 := by
  unfold count_errors
  split <;> omega

theorem poll_loop_control :
    ∀ (rest : List Int) (errors : Int), errors < 10 →
      (∀ (i : Nat) (v : Int), (poll_loop true rest errors).1[i]? = some v →
        i + 1 < (poll_loop true rest errors).1.length → v < 10) ∧
      ((poll_loop true rest errors).2 = true →
        (poll_loop true rest errors).1.getLast? = some 10) ∧
      ((poll_loop true rest errors).2 = false →
        (poll_loop true rest errors).1.length = rest.length ∧
          ∀ v ∈ (poll_loop true rest errors).1, v < 10) := by
  intro rest
  induction rest with
  | nil => intro errors _; simp [poll_loop]
  | cons res rest ih =>
    intro errors he
    have hle := count_errors_le errors res he
    rw [poll_loop]
    by_cases hc : count_errors errors res < 10
    · obtain ⟨h1, h2, h3⟩ := ih (count_errors errors res) hc
      simp only [Bool.true_and, hc, decide_True, if_true]
      refine ⟨?_, ?_, ?_⟩
      · intro i v hv hi
        cases i with
        | zero => simp at hv; omega
        | succ j => exact h1 j v (by simpa using hv) (by simpa using hi)
      · intro hx
        have hl := h2 hx
        cases hrun : (poll_loop true rest (count_errors errors res)).1 with
        | nil => simp [hrun] at hl
        | cons a l => rw [hrun] at hl; simpa [List.getLast?_cons_cons] using hl
      · intro hx
        obtain ⟨hl, hv⟩ := h3 hx
        refine ⟨by simp [hl], ?_⟩
        intro v hmem
        rcases List.mem_cons.1 hmem with rfl | hmem
        · exact hc
        · exact hv v hmem
    · simp only [Bool.true_and, hc, decide_False, if_false]
      refine ⟨?_, ?_, ?_⟩
      · intro i v _ hi; simp at hi
      · intro _; simp; omega
      · intro hx; simp at hx

/-- C3: the caller loop of the single-meter program, run on the sequence of poll
results.  After every cycle `errors` is the number of consecutive failures ending
at that cycle; in loop mode the loop goes on after a cycle only while that
number is below 10, it ends exactly when some cycle is the 10th consecutive
failure, and that cycle is then the last one performed; in single-shot mode
exactly one cycle is performed whatever its outcome. -/
theorem poll_loop_failure_counter (results : List Int) :
    (∀ (loop_mode : Bool) (i : Nat) (v : Int),
        (poll_loop loop_mode results 0).1[i]? = some v →
          v = consecutive_failures (results.take (i + 1))) ∧
      (∀ (i : Nat) (v : Int), (poll_loop true results 0).1[i]? = some v →
        i + 1 < (poll_loop true results 0).1.length → v < 10) ∧
      ((poll_loop true results 0).2 = true ↔
        ∃ i, i < results.length ∧ consecutive_failures (results.take (i + 1)) = 10) ∧
      ((poll_loop true results 0).2 = true →
        (poll_loop true results 0).1.getLast? = some 10) ∧
      ((poll_loop true results 0).2 = false →
        (poll_loop true results 0).1.length = results.length) ∧
      (results ≠ [] →
        (poll_loop false results 0).1.length = 1 ∧ (poll_loop false results 0).2 = true) := by
  have hlog : ∀ (loop_mode : Bool) (i : Nat) (v : Int),
      (poll_loop loop_mode results 0).1[i]? = some v →
        v = consecutive_failures (results.take (i + 1)) := by
    intro loop_mode i v h
    have := poll_loop_log loop_mode results [] i v (by simpa [consecutive_failures] using h)
    simpa using this
  obtain ⟨h1, h2, h3⟩ := poll_loop_control results 0 (by norm_num)
  refine ⟨hlog, h1, ?_, h2, fun h => (h3 h).1, ?_⟩
  · constructor
    · intro hx
      have hl := h2 hx
      have hlen := poll_loop_length true results 0
      rw [List.getLast?_eq_getElem?] at hl
      have hpos : (poll_loop true results 0).1.length ≠ 0 := by
        intro h0
        rw [List.eq_nil_of_length_eq_zero h0] at hl
        simp at hl
      refine ⟨(poll_loop true results 0).1.length - 1, by omega, ?_⟩
      have := hlog true _ _ hl
      exact_mod_cast this.symm
    · rintro ⟨i, hi, hc⟩
      by_contra hx
      have hx : (poll_loop true results 0).2 = false := by simpa using hx
      obtain ⟨hl, hv⟩ := h3 hx
      have hi' : i < (poll_loop true results 0).1.length := by omega
      have hget : (poll_loop true results 0).1[i]? = some ((poll_loop true results 0).1[i]) :=
        List.getElem?_eq_getElem hi'
      have hlt := hv _ (List.getElem_mem hi')
      have := hlog true i _ hget
      omega
  · intro hne
    cases results with
    | nil => exact absurd rfl hne
    | cons res rest => simp [poll_loop]

theorem poll_loop_failure_counter_witness :
    (poll_loop true [-1, -1, -1, -1, -1, -1, -1, -1, -1, -1, -1, 0] 0).1.getLast? = some 10 :=
  (poll_loop_failure_counter [-1, -1, -1, -1, -1, -1, -1, -1, -1, -1, -1, 0]).2.2.2.1 (by decide)

/-- The exit status of the single-meter `main`: -1 exactly when the context
creation, the slave address or the connect fails, and 0 whenever the loop is
reached and ends, whatever the polls returned. -/
theorem main_dds_status_cases (loop_mode new_rtu_ok set_slave_ok connect_ok : Bool)
    (results : List Int) (status : Int)
    (h : main_dds loop_mode new_rtu_ok set_slave_ok connect_ok results = some status) :
    (status = -1 ↔ (new_rtu_ok && set_slave_ok && connect_ok) = false) ∧
      (status = 0 ↔ (new_rtu_ok && set_slave_ok && connect_ok) = true) := by
  unfold main_dds at h
  cases new_rtu_ok <;> cases set_slave_ok <;> cases connect_ok <;> simp at h <;>
    (try subst h) <;> simp
  all_goals
    obtain ⟨_, rfl⟩ := h
    simp

/-- A failed register read makes `ask_meter` return -1 and leave the files as they
were. -/
theorem ask_meter_read_failure (p : Poll) (fs : FS) (h : p.meter.fails 0 = true) :
    ask_meter p fs = some (-1, fs) := by
  simp [ask_meter, modbus_read_registers, h]

/-- In single-shot mode with the set-up succeeding `main` performs one cycle and
returns 0, whatever `ask_meter` returned. -/
theorem main_dds_single_shot (res : Int) (rest : List Int) :
    poll_loop false (res :: rest) 0 = ([count_errors 0 res], true) ∧
      main_dds false true true true (res :: rest) = some 0 := by
  simp [main_dds, poll_loop]

/-- C4 on the code: in single-shot mode with the context creation, the slave address
and the connect succeeding, a failed register read makes `ask_meter` return -1,
the one cycle performed counts it (`errors` is 1) and ends the loop, and `main`
returns 0, not the -1 the specification requires and the three-phase `main` returns. -/
theorem main_dds_read_failure_returns_zero :
    modbus_read_registers dead_poll.meter 0 0x15 = none ∧
      (ask_meter dead_poll (fun _ => none)).map Prod.fst = some (-1) ∧
      poll_loop false [-1] 0 = ([1], true) ∧
      main_dds false true true true [-1] = some 0 ∧
      main_dds false true true true [-1] ≠ some (-1) ∧
      (main_dts ⟨true, true, true, true, dead_meter, sample_tm⟩ old_fs).map
        (fun out => out.status) = some (-1) := by
  refine ⟨by decide, by decide, by decide, by decide, by decide, ?_⟩
  unfold main_dts
  simp only [Bool.not_true, Bool.false_eq_true, if_false]
  have hloop : read_loop dead_meter 0 "\x7b" [] = some ⟨true, "\x7b", [(0, 0x20)]⟩ := by
    rw [read_loop]
    simp [modbus_read_registers, dead_meter]
  rw [hloop]
  rfl

/-! ## Sequencing -/

@[simp] theorem and_then_some {α β : Type} (a : α) (f : α → Option β) :
    and_then (some a) f = f a := rfl

@[simp] theorem and_then_none {α β : Type} (f : α → Option β) :
    and_then none f = none := rfl

theorem and_then_eq_some {α β : Type} (x : Option α) (f : α → Option β) (b : β) :
    and_then x f = some b ↔ ∃ a, x = some a ∧ f a = some b := by
  cases x <;> simp

/-! ## Bit length -/

theorem bitlen_aux_le_iff :
    ∀ (fuel n k : Nat), n ≤ fuel → (bitlen_aux fuel n ≤ k ↔ n < 2 ^ k) := by
  intro fuel
  induction fuel with
  | zero =>
    intro n k h
    have hn : n = 0 := by omega
    subst hn
    simp [bitlen_aux]
  | succ fuel ih =>
    intro n k h
    unfold bitlen_aux
    by_cases hn : n = 0
    · subst hn; simp
    · rw [if_neg hn]
      cases k with
      | zero => simp; omega
      | succ k =>
        have := ih (n / 2) k (by omega)
        rw [Nat.add_le_add_iff_right, this, pow_succ]
        omega

theorem bitlen_le_iff (n k : Nat) : bitlen n ≤ k ↔ n < 2 ^ k :=
  bitlen_aux_le_iff n n k (le_refl n)

theorem lt_two_pow_bitlen (n : Nat) : n < 2 ^ bitlen n :=
  (bitlen_le_iff n (bitlen n)).1 (le_refl _)

theorem two_pow_le_of_lt_bitlen (n k : Nat) (h : k < bitlen n) : 2 ^ k ≤ n := by
  by_contra hc
  have := (bitlen_le_iff n k).2 (by omega)
  omega

/-! ## Decimal digits -/

theorem digitChar_mem (d : Nat) (h : d < 10) : Nat.digitChar d ∈ digit_chars := by
  interval_cases d <;> decide

theorem digitChar_ne_zero (d : Nat) (h : d < 10) (h0 : d ≠ 0) : Nat.digitChar d ≠ '0' := by
  interval_cases d <;> first | exact absurd rfl h0 | decide

theorem toDigitsCore_shape :
    ∀ (fuel n : Nat) (ds : List Char), n < fuel →
      ∃ l : List Char, Nat.toDigitsCore 10 fuel n ds = l ++ ds ∧ l ≠ [] ∧
        (∀ c ∈ l, c ∈ digit_chars) ∧ (n ≠ 0 → l.head? ≠ some '0') ∧ (n = 0 → l = ['0']) ∧
        (∀ k, n < 10 ^ (k + 1) → l.length ≤ k + 1) := by
  intro fuel
  induction fuel with
  | zero => intro n ds h; omega
  | succ fuel ih =>
    intro n ds h
    unfold Nat.toDigitsCore
    by_cases hq : n / 10 = 0
    · simp only [hq, if_true]
      have hn : n < 10 := by omega
      have hmod : n % 10 = n := Nat.mod_eq_of_lt hn
      refine ⟨[Nat.digitChar (n % 10)], by simp, by simp, ?_, ?_, ?_, ?_⟩
      · intro c hc
        simp at hc
        subst hc
        exact digitChar_mem _ (Nat.mod_lt _ (by norm_num))
      · intro h0
        rw [hmod]
        simpa using digitChar_ne_zero n hn h0
      · intro h0
        subst h0
        rfl
      · intro k _
        simp
    · simp only [hq, if_false]
      obtain ⟨l, hl, hne, hall, hhead, _, hlen⟩ :=
        ih (n / 10) (Nat.digitChar (n % 10) :: ds) (by omega)
      refine ⟨l ++ [Nat.digitChar (n % 10)], by simp [hl], by simp, ?_, ?_, ?_, ?_⟩
      · intro c hc
        rcases List.mem_append.1 hc with hc | hc
        · exact hall c hc
        · simp at hc
          subst hc
          exact digitChar_mem _ (Nat.mod_lt _ (by norm_num))
      · intro _
        cases l with
        | nil => exact absurd rfl hne
        | cons a l => simpa using hhead hq
      · intro h0
        omega
      · intro k hk
        cases k with
        | zero => omega
        | succ k =>
          have := hlen k (by rw [pow_succ] at hk; omega)
          simp
          omega

/-- The characters of the decimal text of `n`: digits only, no leading zero except
for the text "0", and at most `k + 1` of them when `n < 10 ^ (k + 1)`. -/
theorem toString_nat_shape (n : Nat) :
    (toString n).data ≠ [] ∧ (∀ c ∈ (toString n).data, c ∈ digit_chars) ∧
      (n ≠ 0 → (toString n).data.head? ≠ some '0') ∧ (n = 0 → (toString n).data = ['0']) ∧
      (∀ k, n < 10 ^ (k + 1) → (toString n).data.length ≤ k + 1) := by
  obtain ⟨l, hl, h⟩ := toDigitsCore_shape (n + 1) n [] (by omega)
  have hd : (toString n).data = l := by
    have : (toString n).data = Nat.toDigitsCore 10 (n + 1) n [] := rfl
    rw [this, hl]
    simp
  rw [hd]
  exact h

theorem utf8Len_digits (l : List Char) (h : ∀ c ∈ l, c ∈ digit_chars) :
    String.utf8Len l = l.length := by
  induction l with
  | nil => rfl
  | cons a l ih =>
    have h1 : a.utf8Size = 1 := by
      have : ∀ c ∈ digit_chars, c.utf8Size = 1 := by decide
      exact this a (h a (by simp))
    rw [String.utf8Len_cons, ih (fun c hc => h c (by simp [hc])), h1]
    simp

/-! ## Rounding to binary32 -/

theorem round_to_24_exact (neg : Bool) (m : Nat) (e : Int) (hm : m < 2 ^ 24) (he : -149 ≤ e) :
    round_to_24 neg m e = ⟨neg, m, e⟩ := by
  have hb : bitlen m - 24 = 0 := by
    have := (bitlen_le_iff m 24).2 hm
    omega
  have ht : (-149 - e).toNat = 0 := by omega
  simp [round_to_24, hb, ht, Nat.mod_one]

theorem int_to_float_small (n : Int) (h : n.natAbs < 2 ^ 24) :
    int_to_float n = ⟨decide (n < 0), n.natAbs, 0⟩ :=
  round_to_24_exact _ _ _ h (by norm_num)

/-- The rounded significand is the quotient or the quotient plus one. -/
theorem round_to_24_m_le (neg : Bool) (m : Nat) (e : Int) :
    (round_to_24 neg m e).m ≤
      m / 2 ^ (max (bitlen m - 24) (-149 - e).toNat) + 1 := by
  simp only [round_to_24]
  split <;> omega

theorem round_to_24_e (neg : Bool) (m : Nat) (e : Int) :
    (round_to_24 neg m e).e = e + ((max (bitlen m - 24) (-149 - e).toNat : Nat) : Int) := rfl

/-- Rounding moves the position of the leading bit up by at most one. -/
theorem round_to_24_bitlen (neg : Bool) (m : Nat) (e : Int) :
    (bitlen (round_to_24 neg m e).m : Int) + (round_to_24 neg m e).e ≤
      max ((bitlen m : Int) + e + 1) (-148) := by
  have hm := round_to_24_m_le neg m e
  rw [round_to_24_e]
  generalize hk : max (bitlen m - 24) (-149 - e).toNat = k at hm
  generalize (round_to_24 neg m e).m = q at hm
  by_cases hkb : k ≤ bitlen m
  · -- the quotient has at most `bitlen m - k` bits
    have h1 : m / 2 ^ k < 2 ^ (bitlen m - k) := by
      rw [Nat.div_lt_iff_lt_mul (Nat.pos_pow_of_pos _ (by norm_num)), ← pow_add]
      have : bitlen m - k + k = bitlen m := by omega
      rw [this]
      exact lt_two_pow_bitlen m
    have h2 : q < 2 ^ (bitlen m - k + 1) := by
      have hpos : 0 < 2 ^ (bitlen m - k) := Nat.pos_pow_of_pos _ (by norm_num)
      rw [pow_succ]
      omega
    have h3 := (bitlen_le_iff q (bitlen m - k + 1)).2 h2
    have : ((bitlen q : Nat) : Int) ≤ (bitlen m : Int) - k + 1 := by omega
    omega
  · -- every bit is dropped: the result is 0 or 1 at the exponent -149
    have hk2 : k = (-149 - e).toNat := by omega
    have h1 : m / 2 ^ k = 0 := by
      apply Nat.div_eq_of_lt
      calc m < 2 ^ bitlen m := lt_two_pow_bitlen m
        _ ≤ 2 ^ k := Nat.pow_le_pow_right (by norm_num) (by omega)
    have h3 := (bitlen_le_iff q 1).2 (by omega)
    omega

theorem bitlen_mul_le (a b : Nat) : bitlen (a * b) ≤ bitlen a + bitlen b := by
  rw [bitlen_le_iff, pow_add]
  exact Nat.mul_lt_mul'' (lt_two_pow_bitlen a) (lt_two_pow_bitlen b)

/-- The product of a scale below one (`c.e ≤ -24` with a 24-bit significand) and a
converted integer of at most 32 bits is finite. -/
theorem f32_mul_int_finite (c : Flt) (n : Int) (hc : c.m < 2 ^ 24) (he : c.e ≤ -24)
    (hn : n.natAbs < 2 ^ 32) :
    f32_mul c (int_to_float n) =
      F32.fin (round_to_24 (xor c.neg (int_to_float n).neg)
        (c.m * (int_to_float n).m) (c.e + (int_to_float n).e)) := by
  have hv := round_to_24_bitlen (decide (n < 0)) n.natAbs 0
  have hbn := (bitlen_le_iff n.natAbs 32).2 hn
  have hbc := (bitlen_le_iff c.m 24).2 hc
  have hr := round_to_24_bitlen (xor c.neg (int_to_float n).neg)
    (c.m * (int_to_float n).m) (c.e + (int_to_float n).e)
  have hmul := bitlen_mul_le c.m (int_to_float n).m
  unfold f32_mul
  simp only
  rw [if_neg]
  simp only [overflows, decide_eq_true_eq]
  unfold int_to_float at hr hmul ⊢
  omega

/-! ## Size of the formatted number -/

theorem thousandths_le (x : Flt) (h : overflows x = false) :
    thousandths x ≤ 1000 * 2 ^ 128 := by
  obtain ⟨neg, m, e⟩ := x
  simp only [overflows, decide_eq_false_iff_not, not_le] at h
  have hm := lt_two_pow_bitlen m
  unfold thousandths
  simp only
  split
  · rename_i he
    have hpow : 2 ^ bitlen m * 2 ^ e.toNat ≤ 2 ^ 128 := by
      rw [← pow_add]
      exact Nat.pow_le_pow_right (by norm_num) (by omega)
    have h1 : m * 2 ^ e.toNat ≤ 2 ^ bitlen m * 2 ^ e.toNat :=
      Nat.mul_le_mul_right _ (le_of_lt hm)
    calc m * 2 ^ e.toNat * 1000 ≤ 2 ^ 128 * 1000 := Nat.mul_le_mul_right _ (le_trans h1 hpow)
      _ = 1000 * 2 ^ 128 := by ring
  · rename_i he
    have hd : 0 < 2 ^ (-e).toNat := Nat.pos_pow_of_pos _ (by norm_num)
    have hpow : 2 ^ bitlen m ≤ 2 ^ 128 * 2 ^ (-e).toNat := by
      rw [← pow_add]
      exact Nat.pow_le_pow_right (by norm_num) (by omega)
    have hq : m * 1000 / 2 ^ (-e).toNat < 1000 * 2 ^ 128 := by
      rw [Nat.div_lt_iff_lt_mul hd]
      calc m * 1000 < 2 ^ bitlen m * 1000 := Nat.mul_lt_mul_of_pos_right hm (by norm_num)
        _ ≤ 2 ^ 128 * 2 ^ (-e).toNat * 1000 := Nat.mul_le_mul_right _ hpow
        _ = 1000 * 2 ^ 128 * 2 ^ (-e).toNat := by ring
    split <;> omega

theorem utf8ByteSize_append (a b : String) :
    (a ++ b).utf8ByteSize = a.utf8ByteSize + b.utf8ByteSize := by
  obtain ⟨a⟩ := a
  obtain ⟨b⟩ := b
  show String.utf8ByteSize ⟨a ++ b⟩ = _
  simp [String.utf8Len_append]

theorem utf8ByteSize_toString_nat (n k : Nat) (h : n < 10 ^ (k + 1)) :
    (toString n).utf8ByteSize ≤ k + 1 := by
  obtain ⟨_, hall, _, _, hlen⟩ := toString_nat_shape n
  have : (toString n).utf8ByteSize = String.utf8Len (toString n).data := rfl
  rw [this, utf8Len_digits _ hall]
  exact hlen k h

theorem utf8ByteSize_pad3 (n : Nat) : (pad3 n).utf8ByteSize = 3 := by
  have h : ∀ d : Nat, Nat.digitChar (d % 10) ∈ digit_chars :=
    fun d => digitChar_mem _ (Nat.mod_lt _ (by norm_num))
  have : (pad3 n).utf8ByteSize = String.utf8Len (pad3 n).data := rfl
  rw [this, utf8Len_digits]
  · rfl
  · intro c hc
    simp only [pad3, List.mem_cons, List.mem_singleton, List.not_mem_nil, or_false] at hc
    rcases hc with rfl | rfl | rfl
    · exact h _
    · exact h _
    · exact h _

theorem utf8ByteSize_decimal3 (neg : Bool) (t : Nat) (h : t ≤ 1000 * 2 ^ 128) :
    (decimal3 neg t).utf8ByteSize ≤ 44 := by
  have h1 : t / 1000 < 10 ^ (38 + 1) := by
    have : t / 1000 ≤ 2 ^ 128 := by omega
    exact lt_of_le_of_lt this (by norm_num)
  have h2 := utf8ByteSize_toString_nat _ 38 h1
  have h3 : (if neg = true then "-" else "").utf8ByteSize ≤ 1 := by
    cases neg <;> decide
  have h4 : (".").utf8ByteSize = 1 := by decide
  unfold decimal3
  rw [utf8ByteSize_append, utf8ByteSize_append, utf8ByteSize_append, utf8ByteSize_pad3, h4]
  omega

/-- The binary32 product prints in at most 44 bytes. -/
theorem utf8ByteSize_fmt3_mul (a b : Flt) : (fmt3 (f32_mul a b)).utf8ByteSize ≤ 44 := by
  unfold f32_mul
  simp only
  split
  · simp only [fmt3]
    split <;> decide
  · rename_i h
    simp only [fmt3]
    exact utf8ByteSize_decimal3 _ _ (thousandths_le _ (by simpa using h))

/-- The formatter's result for a key that leaves room in the buffer: quoted key,
colon, the text of the binary32 product, and the comma when asked for. -/
theorem format_float_eq (key : String) (value coef : Flt) (add_comma : Bool)
    (hk : key.utf8ByteSize ≤ 200) :
    format_float key value coef add_comma =
      some (member_text key (fmt3 (f32_mul coef value)) add_comma) := by
  have hn := utf8ByteSize_fmt3_mul coef value
  have h1 : ("\"").utf8ByteSize = 1 := by decide
  have h2 : ("\":").utf8ByteSize = 2 := by decide
  have hsize : ("\"" ++ key ++ "\":" ++ fmt3 (f32_mul coef value)).utf8ByteSize + 1 < 256 := by
    rw [utf8ByteSize_append, utf8ByteSize_append, utf8ByteSize_append, h1, h2]
    omega
  unfold format_float member_text
  cases add_comma
  · simp only [Bool.false_eq_true, if_false]
    rw [if_pos (by omega)]
    simp
  · simp only [if_true]
    rw [if_pos hsize]

/-! ## Accuracy of the rounding steps -/

/-- The rounded significand, put back at its place, is within half a unit of the
exact value. -/
theorem round_to_24_near (neg : Bool) (m : Nat) (e : Int) :
    2 * ((round_to_24 neg m e).m * 2 ^ (max (bitlen m - 24) (-149 - e).toNat)) ≤
        2 * m + 2 ^ (max (bitlen m - 24) (-149 - e).toNat) ∧
      2 * m ≤ 2 * ((round_to_24 neg m e).m * 2 ^ (max (bitlen m - 24) (-149 - e).toNat)) +
        2 ^ (max (bitlen m - 24) (-149 - e).toNat) := by
  simp only [round_to_24]
  have hp : 0 < 2 ^ (max (bitlen m - 24) (-149 - e).toNat) := Nat.pos_pow_of_pos _ (by norm_num)
  generalize 2 ^ (max (bitlen m - 24) (-149 - e).toNat) = p at hp ⊢
  have hdm := Nat.div_add_mod m p
  have hmul : p * (m / p) = m / p * p := Nat.mul_comm _ _
  have hr := Nat.mod_lt m hp
  split
  · rename_i hup
    rw [Nat.add_mul, Nat.one_mul]
    rcases hup with hup | hup <;> omega
  · rename_i hup
    have : ¬ p < 2 * (m % p) := fun h => hup (Or.inl h)
    omega

/-- The digits `%.3f` prints: any `t` within half a thousandth of the value. -/
theorem thousandths_eq (x : Flt) (t : Nat) (he : x.e < 0)
    (h1 : 2 * (x.m * 1000) < 2 * (t * 2 ^ (-x.e).toNat) + 2 ^ (-x.e).toNat)
    (h2 : 2 * (t * 2 ^ (-x.e).toNat) < 2 * (x.m * 1000) + 2 ^ (-x.e).toNat) :
    thousandths x = t := by
  unfold thousandths
  rw [if_neg (by omega)]
  simp only
  generalize 2 ^ (-x.e).toNat = d at h1 h2 ⊢
  generalize x.m * 1000 = n at h1 h2 ⊢
  have hd : 0 < d := by
    rcases Nat.eq_zero_or_pos d with h0 | h0
    · subst h0; omega
    · exact h0
  have hdm := Nat.div_add_mod n d
  have hr := Nat.mod_lt n hd
  have hle : n / d ≤ t := by
    by_contra hc
    have : d * (t + 1) ≤ d * (n / d) := Nat.mul_le_mul_left d (by omega)
    rw [Nat.mul_add, Nat.mul_one, Nat.mul_comm d t] at this
    omega
  have hge : t ≤ n / d + 1 := by
    by_contra hc
    have : d * (n / d + 2) ≤ d * t := Nat.mul_le_mul_left d (by omega)
    rw [Nat.mul_add, Nat.mul_comm d t] at this
    omega
  have hcases : n / d = t ∨ n / d + 1 = t := by omega
  rcases hcases with hq | hq
  · rw [hq] at hdm
    rw [Nat.mul_comm d t] at hdm
    rw [if_neg, hq]
    rintro (h | ⟨h, _⟩) <;> omega
  · have hdm2 : d * (n / d) + d = t * d := by
      rw [← hq, Nat.add_mul, Nat.one_mul, Nat.mul_comm]
    rw [if_pos, hq]
    left
    omega

theorem two_pow_bitlen_sub (m : Nat) : 2 ^ (bitlen m - 24) * 8388608 ≤ max m 8388608 := by
  by_cases h : 24 ≤ bitlen m
  · have h1 := two_pow_le_of_lt_bitlen m (bitlen m - 1) (by omega)
    have h2 : 2 ^ (bitlen m - 24) * 8388608 = 2 ^ (bitlen m - 1) := by
      have : (8388608 : Nat) = 2 ^ 23 := by norm_num
      rw [this, ← pow_add]
      congr 1
      omega
    rw [h2]
    exact le_trans h1 (le_max_left _ _)
  · have : bitlen m - 24 = 0 := by omega
    rw [this]
    simp

/-- The product of a significand `c` at the exponent `-s` and an integer `a`, rounded
to binary32, prints as `t` thousandths whenever the exact product is within `δ` of
`t` thousandths (in units of `2^-s / 1000`) and the rounding step is small enough. -/
theorem thousandths_round_mul (neg : Bool) (c a s t δ : Nat) (hs : s ≤ 149)
    (hl : 1000 * (c * a) ≤ t * 2 ^ s + δ) (hu : t * 2 ^ s ≤ 1000 * (c * a) + δ)
    (hk : 1000 * 2 ^ (bitlen (c * a) - 24) + 2 * δ < 2 ^ s) :
    thousandths (round_to_24 neg (c * a) (-(s : Int) + 0)) = t := by
  have ht : (-149 - (-(s : Int) + 0)).toNat = 0 := by omega
  obtain ⟨hn1, hn2⟩ := round_to_24_near neg (c * a) (-(s : Int) + 0)
  have he := round_to_24_e neg (c * a) (-(s : Int) + 0)
  rw [ht, Nat.max_zero] at hn1 hn2 he
  generalize hq : (round_to_24 neg (c * a) (-(s : Int) + 0)) = x at hn1 hn2 he ⊢
  generalize hK : bitlen (c * a) - 24 = k at hn1 hn2 he hk
  have hks : k < s := by
    have h1 : 2 ^ k < 2 ^ s := by omega
    exact (Nat.pow_lt_pow_iff_right (by norm_num)).1 h1
  have hd : (-x.e).toNat = s - k := by omega
  have hE : 2 ^ (s - k) * 2 ^ k = 2 ^ s := by
    rw [← pow_add]
    congr 1
    omega
  have hpk : 0 < 2 ^ k := Nat.pos_pow_of_pos _ (by norm_num)
  apply thousandths_eq x t (by omega)
  · rw [hd]
    apply Nat.lt_of_mul_lt_mul_right (a := 2 ^ k)
    have e1 : 2 * (x.m * 1000) * 2 ^ k = 1000 * (2 * (x.m * 2 ^ k)) := by ring
    have e2 : (2 * (t * 2 ^ (s - k)) + 2 ^ (s - k)) * 2 ^ k = 2 * (t * 2 ^ s) + 2 ^ s := by
      rw [← hE]; ring
    rw [e1, e2]
    omega
  · rw [hd]
    apply Nat.lt_of_mul_lt_mul_right (a := 2 ^ k)
    have e1 : (2 * (x.m * 1000) + 2 ^ (s - k)) * 2 ^ k = 1000 * (2 * (x.m * 2 ^ k)) + 2 ^ s := by
      rw [← hE]; ring
    have e2 : 2 * (t * 2 ^ (s - k)) * 2 ^ k = 2 * (t * 2 ^ s) := by
      rw [← hE]; ring
    rw [e1, e2]
    omega

/-! ## The formatter on 16-bit raw values -/

theorem thousandths_mul_0_1 (neg : Bool) (a : Nat) (ha : a ≤ 65535) :
    thousandths (round_to_24 neg (13421773 * a) (-27 + 0)) = a * 100 := by
  have hp := two_pow_bitlen_sub (13421773 * a)
  have := thousandths_round_mul neg 13421773 a 27 (a * 100) (200 * a) (by norm_num)
    (by norm_num; omega) (by norm_num; omega) (by norm_num; omega)
  simpa using this

theorem thousandths_mul_0_01 (neg : Bool) (a : Nat) (ha : a ≤ 65535) :
    thousandths (round_to_24 neg (5368709 * a) (-29 + 0)) = a * 10 := by
  have hp := two_pow_bitlen_sub (5368709 * a)
  have := thousandths_round_mul neg 5368709 a 29 (a * 10) (120 * a) (by norm_num)
    (by norm_num; omega) (by norm_num; omega) (by norm_num; omega)
  simpa using this

theorem thousandths_mul_0_001 (neg : Bool) (a : Nat) (ha : a ≤ 65535) :
    thousandths (round_to_24 neg (8589935 * a) (-33 + 0)) = a := by
  have hp := two_pow_bitlen_sub (8589935 * a)
  have := thousandths_round_mul neg 8589935 a 33 a (408 * a) (by norm_num)
    (by norm_num; omega) (by norm_num; omega) (by norm_num; omega)
  simpa using this

theorem fmt3_mul_0_1 (n : Int) (h : n.natAbs ≤ 65535) :
    fmt3 (f32_mul f_0_1 (int_to_float n)) = decimal3 (decide (n < 0)) (n.natAbs * 100) := by
  rw [f32_mul_int_finite f_0_1 n (by decide) (by decide) (by norm_num; omega),
    int_to_float_small n (by norm_num; omega)]
  simp only [fmt3, f_0_1, Bool.false_xor]
  rw [thousandths_mul_0_1 _ _ h]
  rfl

theorem fmt3_mul_0_01 (n : Int) (h : n.natAbs ≤ 65535) :
    fmt3 (f32_mul f_0_01 (int_to_float n)) = decimal3 (decide (n < 0)) (n.natAbs * 10) := by
  rw [f32_mul_int_finite f_0_01 n (by decide) (by decide) (by norm_num; omega),
    int_to_float_small n (by norm_num; omega)]
  simp only [fmt3, f_0_01, Bool.false_xor]
  rw [thousandths_mul_0_01 _ _ h]
  rfl

theorem fmt3_mul_0_001 (n : Int) (h : n.natAbs ≤ 65535) :
    fmt3 (f32_mul f_0_001 (int_to_float n)) = decimal3 (decide (n < 0)) n.natAbs := by
  rw [f32_mul_int_finite f_0_001 n (by decide) (by decide) (by norm_num; omega),
    int_to_float_small n (by norm_num; omega)]
  simp only [fmt3, f_0_001, Bool.false_xor]
  rw [thousandths_mul_0_001 _ _ h]
  rfl

/-- C7, as the code has it.  For a key of at most 200 bytes and a finite binary32
product `coef * value`, `format_float` returns a quote, the key, a quote, a colon,
the product rounded to thousandths and printed with exactly three digits after
the point, then a comma exactly when `add_comma` is set.  For every raw value of
16 bits, signed or unsigned, and the scales `0.1f`, `0.01f`, `0.001f` the number
printed is exactly raw * 0.1, raw * 0.01, raw * 0.001. -/
theorem format_float_text :
    (∀ (key : String) (value coef : Flt) (add_comma : Bool) (x : Flt),
        key.utf8ByteSize ≤ 200 → f32_mul coef value = F32.fin x →
          format_float key value coef add_comma =
            some (member_text key (decimal3 x.neg (thousandths x)) add_comma)) ∧
      (∀ (key : String) (raw : Int) (add_comma : Bool),
        key.utf8ByteSize ≤ 200 → -32768 ≤ raw → raw ≤ 65535 →
          format_float key (int_to_float raw) f_0_1 add_comma =
              some (member_text key (decimal3 (decide (raw < 0)) (raw.natAbs * 100)) add_comma) ∧
            format_float key (int_to_float raw) f_0_01 add_comma =
              some (member_text key (decimal3 (decide (raw < 0)) (raw.natAbs * 10)) add_comma) ∧
            format_float key (int_to_float raw) f_0_001 add_comma =
              some (member_text key (decimal3 (decide (raw < 0)) raw.natAbs) add_comma)) := by
  constructor
  · intro key value coef add_comma x hk hx
    rw [format_float_eq key value coef add_comma hk, hx]
    rfl
  · intro key raw add_comma hk h1 h2
    have ha : raw.natAbs ≤ 65535 := by omega
    rw [format_float_eq key _ _ add_comma hk, format_float_eq key _ _ add_comma hk,
      format_float_eq key _ _ add_comma hk, fmt3_mul_0_1 raw ha, fmt3_mul_0_01 raw ha,
      fmt3_mul_0_001 raw ha]
    exact ⟨rfl, rfl, rfl⟩

theorem format_float_text_witness :
    format_float "voltage" (int_to_float 230) f_0_1 true = some "\"voltage\":23.000," :=
  (format_float_text.2 "voltage" 230 true (by decide) (by decide) (by decide)).1

set_option maxRecDepth 20000 in
/-- C7 as stated fails: for the raw value 819207 and the scale `0.01f` the formatter
prints 8192.069, while raw * scale rounded to three decimals is 8192.070, both
for the decimal scale 1/100 and for the exact value of the `float` scale; a
scale of `2^127` with the raw value 4 prints `inf`, without digits; and a key of
300 bytes does not fit the buffer. -/
theorem format_float_not_exact :
    format_float "total_energy" (int_to_float 819207) f_0_01 true =
        some "\"total_energy\":8192.069," ∧
      spec_format_float "total_energy" 819207 1 100 true = "\"total_energy\":8192.070," ∧
      spec_format_float "total_energy" 819207 5368709 536870912 true =
        "\"total_energy\":8192.070," ∧
      format_float "x" (int_to_float 4) ⟨false, 1, 127⟩ true = some "\"x\":inf," ∧
      format_float (String.mk (List.replicate 300 'k')) (int_to_float 1) f_0_01 true = none := by
  refine ⟨by decide, by decide, by decide, by decide, by decide⟩

/-! ## JSON tokens -/

theorem isDigit_of_mem_digit_chars (c : Char) (h : c ∈ digit_chars) : c.isDigit = true := by
  have : ∀ c ∈ digit_chars, c.isDigit = true := by decide
  exact this c h

theorem plain_of_mem_digit_chars (c : Char) (h : c ∈ digit_chars) : json_plain_char c = true := by
  have : ∀ c ∈ digit_chars, json_plain_char c = true := by decide
  exact this c h

theorem pad3_data_mem (n : Nat) : ∀ c ∈ (pad3 n).data, c ∈ digit_chars := by
  intro c hc
  have h : ∀ d : Nat, Nat.digitChar (d % 10) ∈ digit_chars :=
    fun d => digitChar_mem _ (Nat.mod_lt _ (by norm_num))
  simp only [pad3, List.mem_cons, List.mem_singleton, List.not_mem_nil, or_false] at hc
  rcases hc with rfl | rfl | rfl <;> exact h _

theorem pad2_data_mem (n : Nat) : ∀ c ∈ (pad2 n).data, c ∈ digit_chars := by
  intro c hc
  have h : ∀ d : Nat, Nat.digitChar (d % 10) ∈ digit_chars :=
    fun d => digitChar_mem _ (Nat.mod_lt _ (by norm_num))
  simp only [pad2, List.mem_cons, List.mem_singleton, List.not_mem_nil, or_false] at hc
  rcases hc with rfl | rfl <;> exact h _

/-- Digits, a point and digits form a JSON number when the integer part has no
leading zero. -/
theorem is_json_number_digits (ds fr : List Char) (hds : ds ≠ [])
    (hall : ∀ c ∈ ds, c ∈ digit_chars) (hlead : ds = ['0'] ∨ ds.head? ≠ some '0')
    (hfr : fr ≠ []) (hfall : ∀ c ∈ fr, c ∈ digit_chars) (neg : Bool) :
    is_json_number ((if neg then ['-'] else []) ++ ds ++ '.' :: fr) = true := by
  have hd : ∀ c ∈ ds, c.isDigit = true := fun c hc => isDigit_of_mem_digit_chars c (hall c hc)
  have hf : ∀ c ∈ fr, c.isDigit = true := fun c hc => isDigit_of_mem_digit_chars c (hfall c hc)
  have hdot : Char.isDigit '.' = false := by decide
  have hbody : (match (if neg then ['-'] else []) ++ ds ++ '.' :: fr with
      | '-' :: t => t
      | _ => (if neg then ['-'] else []) ++ ds ++ '.' :: fr) = ds ++ '.' :: fr := by
    cases neg
    · obtain ⟨a, ds', rfl⟩ := List.exists_cons_of_ne_nil hds
      have ha : a ≠ '-' := by
        have : ∀ c ∈ digit_chars, c ≠ '-' := by decide
        exact this a (hall a (by simp))
      simp only [Bool.false_eq_true, if_false, List.nil_append, List.cons_append]
      split
      · rename_i heq
        simp only [List.cons.injEq] at heq
        exact absurd heq.1 ha
      · rfl
    · simp
  unfold is_json_number
  simp only [hbody]
  rw [List.takeWhile_append_of_pos hd, List.dropWhile_append_of_pos hd]
  simp only [List.takeWhile_cons, hdot, List.dropWhile_cons, List.append_nil, Bool.false_eq_true,
    if_false]
  have h1 : (ds == ['0'] || (!ds.isEmpty && ds.head? != some '0')) = true := by
    rcases hlead with h | h
    · subst h; decide
    · have hne : ds.isEmpty = false := by
        cases ds with
        | nil => exact absurd rfl hds
        | cons a l => rfl
      simp [hne, h]
  have h2 : (!fr.isEmpty && fr.all Char.isDigit) = true := by
    have hne : fr.isEmpty = false := by
      cases fr with
      | nil => exact absurd rfl hfr
      | cons a l => rfl
    simp [hne, List.all_eq_true]
    exact hf
  rw [h1, h2]
  rfl

theorem decimal3_data (neg : Bool) (t : Nat) :
    (decimal3 neg t).data =
      (if neg then ['-'] else []) ++ (toString (t / 1000)).data ++ '.' :: (pad3 (t % 1000)).data := by
  cases neg <;> simp [decimal3]

/-- The text `%.3f` prints for a finite value is a JSON number. -/
theorem is_json_number_decimal3 (neg : Bool) (t : Nat) :
    is_json_number (decimal3 neg t).data = true := by
  obtain ⟨hne, hall, hhead, hzero, _⟩ := toString_nat_shape (t / 1000)
  rw [decimal3_data]
  apply is_json_number_digits _ _ hne hall _ _ (pad3_data_mem _)
  · by_cases h0 : t / 1000 = 0
    · exact Or.inl (hzero h0)
    · exact Or.inr (hhead h0)
  · simp [pad3]

theorem is_json_plain_append (a b : List Char) :
    is_json_plain (a ++ b) = (is_json_plain a && is_json_plain b) := by
  simp [is_json_plain, List.all_append]

theorem is_json_plain_digits (l : List Char) (h : ∀ c ∈ l, c ∈ digit_chars) :
    is_json_plain l = true := by
  simp only [is_json_plain, List.all_eq_true]
  exact fun c hc => plain_of_mem_digit_chars c (h c hc)

/-- A time stamp holds only digits, hyphens, colons and a blank. -/
theorem is_json_plain_strftime_ts (t : Tm) : is_json_plain (strftime_ts t).data = true := by
  have hy := is_json_plain_digits _ (toString_nat_shape (t.tm_year.val + 1900)).2.1
  have hp := fun n => is_json_plain_digits _ (pad2_data_mem n)
  have h1 : is_json_plain "-".data = true := by decide
  have h2 : is_json_plain " ".data = true := by decide
  have h3 : is_json_plain ":".data = true := by decide
  simp only [strftime_ts, String.data_append, is_json_plain_append, hy, hp, h1, h2, h3,
    Bool.and_self]

/-! ## Writing a member -/

theorem fputs_float_eq (json key : String) (value : Int) (coef : Flt)
    (hk : key.utf8ByteSize ≤ 200) :
    fputs_float json key value coef =
      some (json ++ member_text key (fmt3 (f32_mul coef (int_to_float value))) true) := by
  unfold fputs_float
  rw [format_float_eq key _ _ true hk]
  rfl

/-! ## The single-meter document -/

theorem u32_val_get (tab_reg : List Reg) (ofs : Nat) (hi lo : Reg)
    (h1 : tab_reg[ofs]? = some hi) (h2 : tab_reg[ofs + 1]? = some lo) :
    u32_val tab_reg ofs = some (hi.val * 65536 + lo.val) := by
  simp only [u32_val, h1, h2, Option.bind_eq_bind, Option.some_bind, Option.pure_def,
    Option.some.injEq]
  exact u32_word _ _ hi.isLt lo.isLt

theorem i32_val_get (tab_reg : List Reg) (ofs : Nat) (hi lo : Reg)
    (h1 : tab_reg[ofs]? = some hi) (h2 : tab_reg[ofs + 1]? = some lo) :
    i32_val tab_reg ofs =
      some (if hi.val < 32768 then (hi.val : Int) * 65536 + lo.val
        else (hi.val : Int) * 65536 + lo.val - 4294967296) := by
  simp only [i32_val, h1, h2, Option.bind_eq_bind, Option.some_bind, Option.pure_def,
    Option.some.injEq]
  exact i32_word _ _ hi.isLt lo.isLt

theorem spec_member_u16 (tab_reg : List Reg) (key : String) (ofs : Nat) (scale : Flt) (r : Reg)
    (h : tab_reg[ofs]? = some r) (hk : key.utf8ByteSize ≤ 200) :
    spec_member tab_reg ⟨key, ofs, .u16, scale⟩ =
      some (member_text key (fmt3 (f32_mul scale (int_to_float (r.val : Int)))) true) := by
  simp only [spec_member, spec_raw, h, Option.map_some', Option.some_bind]
  exact format_float_eq key _ _ true hk

theorem spec_member_s16 (tab_reg : List Reg) (key : String) (ofs : Nat) (scale : Flt) (r : Reg)
    (h : tab_reg[ofs]? = some r) (hk : key.utf8ByteSize ≤ 200) :
    spec_member tab_reg ⟨key, ofs, .s16, scale⟩ =
      some (member_text key (fmt3 (f32_mul scale (int_to_float (to_int16 r)))) true) := by
  simp only [spec_member, spec_raw, h, Option.map_some', Option.some_bind]
  exact format_float_eq key _ _ true hk

theorem spec_member_u32 (tab_reg : List Reg) (key : String) (ofs : Nat) (scale : Flt)
    (hi lo : Reg) (h1 : tab_reg[ofs]? = some hi) (h2 : tab_reg[ofs + 1]? = some lo)
    (hk : key.utf8ByteSize ≤ 200) :
    spec_member tab_reg ⟨key, ofs, .u32, scale⟩ =
      some (member_text key
        (fmt3 (f32_mul scale (int_to_float ((hi.val * 65536 + lo.val : Nat) : Int)))) true) := by
  simp only [spec_member, spec_raw, h1, h2, Option.map_some', Option.some_bind]
  rw [format_float_eq key _ _ true hk]
  push_cast
  rfl

theorem spec_member_s32 (tab_reg : List Reg) (key : String) (ofs : Nat) (scale : Flt)
    (hi lo : Reg) (h1 : tab_reg[ofs]? = some hi) (h2 : tab_reg[ofs + 1]? = some lo)
    (hk : key.utf8ByteSize ≤ 200) :
    spec_member tab_reg ⟨key, ofs, .s32, scale⟩ =
      some (member_text key (fmt3 (f32_mul scale (int_to_float
        (if hi.val < 32768 then (hi.val : Int) * 65536 + lo.val
          else (hi.val : Int) * 65536 + lo.val - 4294967296)))) true) := by
  simp only [spec_member, spec_raw, h1, h2, Option.map_some', Option.some_bind]
  exact format_float_eq key _ _ true hk

/-- The members of the single-meter document, spelled out. -/
theorem spec_members_dds (tab_reg : List Reg) (h : 18 ≤ tab_reg.length) :
    ∃ v1 v2 v3 v4 v5 v6 v7 v8 v9 : Int,
      spec_members spec_dds_fields tab_reg = some
        [member_text "total_energy" (fmt3 (f32_mul f_0_01 (int_to_float v1))) true,
         member_text "reversing_energy" (fmt3 (f32_mul f_0_01 (int_to_float v2))) true,
         member_text "forward_energy" (fmt3 (f32_mul f_0_01 (int_to_float v3))) true,
         member_text "voltage" (fmt3 (f32_mul f_0_1 (int_to_float v4))) true,
         member_text "current" (fmt3 (f32_mul f_0_01 (int_to_float v5))) true,
         member_text "active_power" (fmt3 (f32_mul f_0_001 (int_to_float v6))) true,
         member_text "reactive_power" (fmt3 (f32_mul f_0_001 (int_to_float v7))) true,
         member_text "power_factor" (fmt3 (f32_mul f_0_001 (int_to_float v8))) true,
         member_text "frequency" (fmt3 (f32_mul f_0_01 (int_to_float v9))) true] ∧
      (∀ ts : String, ask_meter_text tab_reg ts = some
        ("\x7b" ++
          member_text "total_energy" (fmt3 (f32_mul f_0_01 (int_to_float v1))) true ++
          member_text "reversing_energy" (fmt3 (f32_mul f_0_01 (int_to_float v2))) true ++
          member_text "forward_energy" (fmt3 (f32_mul f_0_01 (int_to_float v3))) true ++
          member_text "voltage" (fmt3 (f32_mul f_0_1 (int_to_float v4))) true ++
          member_text "current" (fmt3 (f32_mul f_0_01 (int_to_float v5))) true ++
          member_text "active_power" (fmt3 (f32_mul f_0_001 (int_to_float v6))) true ++
          member_text "reactive_power" (fmt3 (f32_mul f_0_001 (int_to_float v7))) true ++
          member_text "power_factor" (fmt3 (f32_mul f_0_001 (int_to_float v8))) true ++
          member_text "frequency" (fmt3 (f32_mul f_0_01 (int_to_float v9))) true ++
          ("\"ts\":\"" ++ ts ++ "\"") ++ "\x7d\n")) ∧
      v1.natAbs < 2 ^ 32 ∧ v2.natAbs < 2 ^ 32 ∧ v3.natAbs < 2 ^ 32 ∧ v4.natAbs < 2 ^ 32 ∧
      v5.natAbs < 2 ^ 32 ∧ v6.natAbs < 2 ^ 32 ∧ v7.natAbs < 2 ^ 32 ∧ v8.natAbs < 2 ^ 32 ∧
      v9.natAbs < 2 ^ 32 := by
  have e0 := List.getElem?_eq_getElem (show 0 < tab_reg.length by omega)
  have e1 := List.getElem?_eq_getElem (show 1 < tab_reg.length by omega)
  have e8 := List.getElem?_eq_getElem (show 8 < tab_reg.length by omega)
  have e9 := List.getElem?_eq_getElem (show 9 < tab_reg.length by omega)
  have e10 := List.getElem?_eq_getElem (show 10 < tab_reg.length by omega)
  have e11 := List.getElem?_eq_getElem (show 11 < tab_reg.length by omega)
  have e12 := List.getElem?_eq_getElem (show 12 < tab_reg.length by omega)
  have e13 := List.getElem?_eq_getElem (show 13 < tab_reg.length by omega)
  have e14 := List.getElem?_eq_getElem (show 14 < tab_reg.length by omega)
  have e15 := List.getElem?_eq_getElem (show 15 < tab_reg.length by omega)
  have e16 := List.getElem?_eq_getElem (show 16 < tab_reg.length by omega)
  have e17 := List.getElem?_eq_getElem (show 17 < tab_reg.length by omega)
  have u0 := u32_val_get tab_reg 0 _ _ e0 e1
  have u8 := u32_val_get tab_reg 8 _ _ e8 e9
  have u10 := u32_val_get tab_reg 10 _ _ e10 e11
  have h0 : 0 < tab_reg.length := by omega
  have h1 : 1 < tab_reg.length := by omega
  have h8 : 8 < tab_reg.length := by omega
  have h9 : 9 < tab_reg.length := by omega
  have h10 : 10 < tab_reg.length := by omega
  have h11 : 11 < tab_reg.length := by omega
  have h12 : 12 < tab_reg.length := by omega
  have h13 : 13 < tab_reg.length := by omega
  have h14 : 14 < tab_reg.length := by omega
  have h15 : 15 < tab_reg.length := by omega
  have h16 : 16 < tab_reg.length := by omega
  have h17 : 17 < tab_reg.length := by omega
  refine ⟨((tab_reg[0].val * 65536 + tab_reg[1].val : Nat) : Int),
    ((tab_reg[8].val * 65536 + tab_reg[9].val : Nat) : Int),
    ((tab_reg[10].val * 65536 + tab_reg[11].val : Nat) : Int),
    (tab_reg[12].val : Int), (tab_reg[13].val : Int), (tab_reg[14].val : Int),
    to_int16 tab_reg[15], (tab_reg[16].val : Int), (tab_reg[17].val : Int), ?_, ?_, ?_⟩
  · simp (disch := decide) only [spec_members, spec_dds_fields, List.mapM_cons, List.mapM_nil,
      spec_member_u32 tab_reg _ 0 _ _ _ e0 e1,
      spec_member_u32 tab_reg _ 8 _ _ _ e8 e9,
      spec_member_u32 tab_reg _ 10 _ _ _ e10 e11,
      spec_member_u16 tab_reg _ 12 _ _ e12,
      spec_member_u16 tab_reg _ 13 _ _ e13,
      spec_member_u16 tab_reg _ 14 _ _ e14,
      spec_member_s16 tab_reg _ 15 _ _ e15,
      spec_member_u16 tab_reg _ 16 _ _ e16,
      spec_member_u16 tab_reg _ 17 _ _ e17,
      Option.bind_eq_bind, Option.some_bind, Option.pure_def]
  · intro ts
    simp (disch := decide) only [ask_meter_text, u0, u8, u10, e12, e13, e14, e15, e16, e17,
      and_then_some, fputs_float_eq, Nat.reduceAdd]
  · have b0 := (tab_reg[0]).isLt
    have b1 := (tab_reg[1]).isLt
    have b8 := (tab_reg[8]).isLt
    have b9 := (tab_reg[9]).isLt
    have b10 := (tab_reg[10]).isLt
    have b11 := (tab_reg[11]).isLt
    have b12 := (tab_reg[12]).isLt
    have b13 := (tab_reg[13]).isLt
    have b14 := (tab_reg[14]).isLt
    have b15 := (tab_reg[15]).isLt
    have b16 := (tab_reg[16]).isLt
    have b17 := (tab_reg[17]).isLt
    have hs : (to_int16 tab_reg[15]).natAbs < 2 ^ 32 := by
      unfold to_int16
      split <;> omega
    refine ⟨?_, ?_, ?_, ?_, ?_, ?_, hs, ?_, ?_⟩ <;> norm_num <;> omega

theorem is_json_number_fmt3 (c : Flt) (v : Int) (hc : c.m < 2 ^ 24) (he : c.e ≤ -24)
    (hv : v.natAbs < 2 ^ 32) :
    is_json_number (fmt3 (f32_mul c (int_to_float v))).data = true := by
  rw [f32_mul_int_finite c v hc he hv]
  exact is_json_number_decimal3 _ _

theorem json_scalar_fmt3 (c : Flt) (v : Int) (hc : c.m < 2 ^ 24) (he : c.e ≤ -24)
    (hv : v.natAbs < 2 ^ 32) : JsonScalar (fmt3 (f32_mul c (int_to_float v))) :=
  Or.inl (is_json_number_fmt3 c v hc he hv)

theorem member_text_comma (key number : String) :
    ∃ body : String, member_text key number true = body ++ "," :=
  ⟨"\"" ++ key ++ "\":" ++ number, rfl⟩

/-- C8: for every content of the 21-register window and every time stamp text, the
text `ask_meter` writes after a successful read is an opening brace, the nine
members of the single-meter schema in schema order, each the formatter's output
with its comma, then the member `ts` without comma, a closing brace and a
newline; with a time stamp made by `strftime` it is a flat JSON object with the
keys of the schema, and it is what the snapshot holds after the rename. -/
theorem ask_meter_document (tab_reg : List Reg) (ts : String) (h : tab_reg.length = 21) :
    ∃ (ms : List String) (text : String),
      spec_members spec_dds_fields tab_reg = some ms ∧ ms.length = 9 ∧
      (∀ m ∈ ms, ∃ body : String, m = body ++ ",") ∧
      ask_meter_text tab_reg ts = some text ∧
      text = "\x7b" ++ String.join ms ++ ("\"ts\":\"" ++ ts ++ "\"") ++ "\x7d\n" ∧
      ((∃ tm : Tm, ts = strftime_ts tm) → FlatJson dds_keys text) ∧
      ∀ (p : Poll) (fs : FS), modbus_read_registers p.meter 0 0x15 = some tab_reg →
        p.fopen_ok = true → p.rename_ok = true → strftime_ts p.tm = ts →
          (ask_meter p fs).map (fun r => (r.1, r.2 snapshot_path)) = some (0, some text) := by
  obtain ⟨v1, v2, v3, v4, v5, v6, v7, v8, v9, hms, htext, b1, b2, b3, b4, b5, b6, b7, b8, b9⟩ :=
    spec_members_dds tab_reg (by omega)
  refine ⟨_, _, hms, rfl, ?_, htext ts, ?_, ?_, ?_⟩
  · intro m hm
    simp only [List.mem_cons, List.mem_singleton, List.not_mem_nil, or_false] at hm
    rcases hm with rfl | rfl | rfl | rfl | rfl | rfl | rfl | rfl | rfl <;>
      exact member_text_comma _ _
  · simp only [String.join, List.foldl, String.empty_append, String.append_assoc]
  · rintro ⟨tm, rfl⟩
    refine ⟨by decide,
      [fmt3 (f32_mul f_0_01 (int_to_float v1)), fmt3 (f32_mul f_0_01 (int_to_float v2)),
       fmt3 (f32_mul f_0_01 (int_to_float v3)), fmt3 (f32_mul f_0_1 (int_to_float v4)),
       fmt3 (f32_mul f_0_01 (int_to_float v5)), fmt3 (f32_mul f_0_001 (int_to_float v6)),
       fmt3 (f32_mul f_0_001 (int_to_float v7)), fmt3 (f32_mul f_0_001 (int_to_float v8)),
       fmt3 (f32_mul f_0_01 (int_to_float v9)), "\"" ++ strftime_ts tm ++ "\""], rfl, ?_, ?_⟩
    · intro v hv
      simp only [List.mem_cons, List.mem_singleton, List.not_mem_nil, or_false] at hv
      rcases hv with rfl | rfl | rfl | rfl | rfl | rfl | rfl | rfl | rfl | rfl
      · exact json_scalar_fmt3 f_0_01 v1 (by decide) (by decide) b1
      · exact json_scalar_fmt3 f_0_01 v2 (by decide) (by decide) b2
      · exact json_scalar_fmt3 f_0_01 v3 (by decide) (by decide) b3
      · exact json_scalar_fmt3 f_0_1 v4 (by decide) (by decide) b4
      · exact json_scalar_fmt3 f_0_01 v5 (by decide) (by decide) b5
      · exact json_scalar_fmt3 f_0_001 v6 (by decide) (by decide) b6
      · exact json_scalar_fmt3 f_0_001 v7 (by decide) (by decide) b7
      · exact json_scalar_fmt3 f_0_001 v8 (by decide) (by decide) b8
      · exact json_scalar_fmt3 f_0_01 v9 (by decide) (by decide) b9
      · exact Or.inr ⟨strftime_ts tm, rfl, is_json_plain_strftime_ts tm⟩
    · have hlit : "\"ts\":\"" = "\"" ++ "ts" ++ "\":" ++ "\"" := by decide
      rw [hlit]
      simp only [dds_keys, List.zipWith, String.intercalate, String.intercalate.go, member_text,
        if_true, String.append_assoc]
  · intro p fs hread hopen hren hts
    simp only [ask_meter, hread, hopen, hren, hts, htext ts, and_then_some, if_true,
      Option.map_some']
    simp [FS.set, snapshot_path, temp_path]

/-! ## The three-phase windows -/

theorem fprintf_flags_eq (flags : Reg) :
    ∃ h : flags.val % 8 < baud_rates.length, ∀ json : String,
      fprintf_flags json flags =
        some (json ++ ("\"baud_rate\":\"" ++ baud_rates.get ⟨flags.val % 8, h⟩ ++ "\",") ++
          ("\"comm_addr\":" ++ toString (flags.val / 256) ++ ",")) := by
  have hand : flags.val &&& 7 = flags.val % 8 := Nat.and_pow_two_sub_one_eq_mod flags.val 3
  have hlt : flags.val % 8 < baud_rates.length := Nat.mod_lt _ (by norm_num)
  refine ⟨hlt, fun json => ?_⟩
  have hshift : flags.val >>> 8 = flags.val / 256 := by
    rw [Nat.shiftRight_eq_div_pow]
  simp only [fprintf_flags, hand, hshift, List.getElem?_eq_getElem hlt, and_then_some,
    List.get_eq_getElem]

theorem decode_00_eq (tab_reg : List Reg) (h : 22 ≤ tab_reg.length) :
    ∃ (flags : Reg) (hf : flags.val % 8 < baud_rates.length),
      tab_reg[0x15]? = some flags ∧ ∀ json : String,
      decode_00 tab_reg json =
        (spec_members spec_dts_fields_00 tab_reg).map fun ms =>
          json ++ String.join ms ++
            ("\"baud_rate\":\"" ++ baud_rates.get ⟨flags.val % 8, hf⟩ ++ "\",") ++
            ("\"comm_addr\":" ++ toString (flags.val / 256) ++ ",") := by
  have e0 := List.getElem?_eq_getElem (show 0 < tab_reg.length by omega)
  have e1 := List.getElem?_eq_getElem (show 1 < tab_reg.length by omega)
  have e8 := List.getElem?_eq_getElem (show 8 < tab_reg.length by omega)
  have e9 := List.getElem?_eq_getElem (show 9 < tab_reg.length by omega)
  have e10 := List.getElem?_eq_getElem (show 10 < tab_reg.length by omega)
  have e11 := List.getElem?_eq_getElem (show 11 < tab_reg.length by omega)
  have e17 := List.getElem?_eq_getElem (show 17 < tab_reg.length by omega)
  have e21 := List.getElem?_eq_getElem (show 21 < tab_reg.length by omega)
  have u0 := u32_val_get tab_reg 0 _ _ e0 e1
  have u8 := u32_val_get tab_reg 8 _ _ e8 e9
  have u10 := u32_val_get tab_reg 10 _ _ e10 e11
  obtain ⟨hf, hflags⟩ := fprintf_flags_eq tab_reg[21]
  refine ⟨tab_reg[21], hf, e21, fun json => ?_⟩
  simp (disch := decide) only [decode_00, u0, u8, u10, e17, e21, and_then_some, fputs_float_eq,
    hflags, spec_members, spec_dts_fields_00, List.mapM_cons, List.mapM_nil,
    spec_member_u32 tab_reg _ 0 _ _ _ e0 e1, spec_member_u32 tab_reg _ 8 _ _ _ e8 e9,
    spec_member_u32 tab_reg _ 10 _ _ _ e10 e11, spec_member_u16 tab_reg _ 17 _ _ e17,
    Option.bind_eq_bind, Option.some_bind, Option.pure_def, Option.map_some', String.join,
    List.foldl, String.empty_append, String.append_assoc]

theorem decode_80_eq (tab_reg : List Reg) (json : String) (h : 25 ≤ tab_reg.length) :
    decode_80 tab_reg json =
      (spec_members spec_dts_fields_80 tab_reg).map fun ms => json ++ String.join ms := by
  have e0 := List.getElem?_eq_getElem (show 0 < tab_reg.length by omega)
  have e1 := List.getElem?_eq_getElem (show 1 < tab_reg.length by omega)
  have e2 := List.getElem?_eq_getElem (show 2 < tab_reg.length by omega)
  have e3 := List.getElem?_eq_getElem (show 3 < tab_reg.length by omega)
  have e4 := List.getElem?_eq_getElem (show 4 < tab_reg.length by omega)
  have e5 := List.getElem?_eq_getElem (show 5 < tab_reg.length by omega)
  have e6 := List.getElem?_eq_getElem (show 6 < tab_reg.length by omega)
  have e7 := List.getElem?_eq_getElem (show 7 < tab_reg.length by omega)
  have e8 := List.getElem?_eq_getElem (show 8 < tab_reg.length by omega)
  have e9 := List.getElem?_eq_getElem (show 9 < tab_reg.length by omega)
  have e10 := List.getElem?_eq_getElem (show 10 < tab_reg.length by omega)
  have e11 := List.getElem?_eq_getElem (show 11 < tab_reg.length by omega)
  have e12 := List.getElem?_eq_getElem (show 12 < tab_reg.length by omega)
  have e13 := List.getElem?_eq_getElem (show 13 < tab_reg.length by omega)
  have e14 := List.getElem?_eq_getElem (show 14 < tab_reg.length by omega)
  have e15 := List.getElem?_eq_getElem (show 15 < tab_reg.length by omega)
  have e16 := List.getElem?_eq_getElem (show 16 < tab_reg.length by omega)
  have e17 := List.getElem?_eq_getElem (show 17 < tab_reg.length by omega)
  have e18 := List.getElem?_eq_getElem (show 18 < tab_reg.length by omega)
  have e19 := List.getElem?_eq_getElem (show 19 < tab_reg.length by omega)
  have e20 := List.getElem?_eq_getElem (show 20 < tab_reg.length by omega)
  have e21 := List.getElem?_eq_getElem (show 21 < tab_reg.length by omega)
  have e22 := List.getElem?_eq_getElem (show 22 < tab_reg.length by omega)
  have e23 := List.getElem?_eq_getElem (show 23 < tab_reg.length by omega)
  have e24 := List.getElem?_eq_getElem (show 24 < tab_reg.length by omega)
  have i6 := i32_val_get tab_reg 6 _ _ e6 e7
  have i11 := i32_val_get tab_reg 11 _ _ e11 e12
  have u16 := u32_val_get tab_reg 16 _ _ e16 e17
  simp (disch := decide) only [decode_80, i6, i11, u16, e0, e1, e2, e3, e4, e5, e8, e9, e10, e13, e14, e15, e18, e19, e20, e21, e22, e23, e24,
    and_then_some, fputs_float_eq, Nat.reduceAdd, spec_members, spec_dts_fields_80,
    List.mapM_cons, List.mapM_nil,
    spec_member_u16 tab_reg _ 0 _ _ e0,
    spec_member_u16 tab_reg _ 1 _ _ e1,
    spec_member_u16 tab_reg _ 2 _ _ e2,
    spec_member_u16 tab_reg _ 3 _ _ e3,
    spec_member_u16 tab_reg _ 4 _ _ e4,
    spec_member_u16 tab_reg _ 5 _ _ e5,
    spec_member_s32 tab_reg _ 6 _ _ _ e6 e7,
    spec_member_s16 tab_reg _ 8 _ _ e8,
    spec_member_s16 tab_reg _ 9 _ _ e9,
    spec_member_s16 tab_reg _ 10 _ _ e10,
    spec_member_s32 tab_reg _ 11 _ _ _ e11 e12,
    spec_member_s16 tab_reg _ 13 _ _ e13,
    spec_member_s16 tab_reg _ 14 _ _ e14,
    spec_member_s16 tab_reg _ 15 _ _ e15,
    spec_member_u32 tab_reg _ 16 _ _ _ e16 e17,
    spec_member_u16 tab_reg _ 18 _ _ e18,
    spec_member_u16 tab_reg _ 19 _ _ e19,
    spec_member_u16 tab_reg _ 20 _ _ e20,
    spec_member_u16 tab_reg _ 21 _ _ e21,
    spec_member_u16 tab_reg _ 22 _ _ e22,
    spec_member_u16 tab_reg _ 23 _ _ e23,
    spec_member_u16 tab_reg _ 24 _ _ e24,
    Option.bind_eq_bind, Option.some_bind, Option.pure_def, Option.map_some', String.join,
    List.foldl, String.empty_append, String.append_assoc]

theorem format_float_shape (key : String) (value coef : Flt) (add_comma : Bool) (s : String)
    (h : format_float key value coef add_comma = some s) :
    s = member_text key (fmt3 (f32_mul coef value)) add_comma := by
  unfold format_float at h
  cases add_comma
  · simp only [Bool.false_eq_true, if_false] at h
    split at h
    · simp only [Option.some.injEq] at h
      rw [← h]
      simp [member_text]
    · exact absurd h (by simp)
  · simp only [if_true] at h
    split at h
    · simp only [Option.some.injEq] at h
      rw [← h]
      rfl
    · exact absurd h (by simp)

/-- The members made from a list of fields carry the keys of the fields, in order. -/
theorem spec_members_keys (tab_reg : List Reg) :
    ∀ (fields : List Field) (ms : List String), spec_members fields tab_reg = some ms →
      List.Forall₂ (fun (f : Field) (s : String) => ∃ number : String,
        s = member_text f.key number true) fields ms := by
  intro fields
  induction fields with
  | nil =>
    intro ms h
    simp only [spec_members, List.mapM_nil, Option.pure_def, Option.some.injEq] at h
    subst h
    exact List.Forall₂.nil
  | cons f fields ih =>
    intro ms h
    simp only [spec_members, List.mapM_cons, Option.bind_eq_bind, Option.pure_def,
      Option.bind_eq_some, Option.some.injEq] at h
    obtain ⟨s, hs, rest, hrest, rfl⟩ := h
    refine List.Forall₂.cons ?_ (ih rest hrest)
    simp only [spec_member, Option.bind_eq_some] at hs
    obtain ⟨raw, _, hf⟩ := hs
    exact ⟨_, format_float_shape _ _ _ _ _ hf⟩

/-! ## Every lookup stays inside the window -/

theorem spec_member_isSome (tab_reg : List Reg) (f : Field)
    (h : spec_last_reg f < tab_reg.length) (hk : f.key.utf8ByteSize ≤ 200) :
    (spec_member tab_reg f).isSome = true := by
  obtain ⟨key, ofs, width, scale⟩ := f
  cases width
  · have e := List.getElem?_eq_getElem (show ofs < tab_reg.length from h)
    rw [spec_member_u16 tab_reg key ofs scale _ e hk]
    rfl
  · have e := List.getElem?_eq_getElem (show ofs < tab_reg.length from h)
    rw [spec_member_s16 tab_reg key ofs scale _ e hk]
    rfl
  · have h' : ofs + 1 < tab_reg.length := h
    have e1 := List.getElem?_eq_getElem (show ofs < tab_reg.length by omega)
    have e2 := List.getElem?_eq_getElem h'
    rw [spec_member_u32 tab_reg key ofs scale _ _ e1 e2 hk]
    rfl
  · have h' : ofs + 1 < tab_reg.length := h
    have e1 := List.getElem?_eq_getElem (show ofs < tab_reg.length by omega)
    have e2 := List.getElem?_eq_getElem h'
    rw [spec_member_s32 tab_reg key ofs scale _ _ e1 e2 hk]
    rfl

theorem spec_members_isSome (tab_reg : List Reg) :
    ∀ fields : List Field,
      (∀ f ∈ fields, spec_last_reg f < tab_reg.length ∧ f.key.utf8ByteSize ≤ 200) →
        ∃ ms : List String, spec_members fields tab_reg = some ms := by
  intro fields
  induction fields with
  | nil => intro _; exact ⟨[], rfl⟩
  | cons f fields ih =>
    intro h
    obtain ⟨ms, hms⟩ := ih (fun g hg => h g (List.mem_cons_of_mem _ hg))
    obtain ⟨s, hs⟩ := Option.isSome_iff_exists.1
      (spec_member_isSome tab_reg f (h f (List.mem_cons_self _ _)).1 (h f (List.mem_cons_self _ _)).2)
    refine ⟨s :: ms, ?_⟩
    unfold spec_members at hms ⊢
    simp only [List.mapM_cons, hs, hms, Option.bind_eq_bind, Option.some_bind, Option.pure_def]

theorem spec_members_of_bound (tab_reg : List Reg) (fields : List Field) (n : Nat)
    (hn : n ≤ tab_reg.length)
    (h : ∀ f ∈ fields, spec_last_reg f < n ∧ f.key.utf8ByteSize ≤ 200) :
    ∃ ms : List String, spec_members fields tab_reg = some ms ∧
      List.Forall₂ is_member_of (fields.map Field.key) ms := by
  obtain ⟨ms, hms⟩ := spec_members_isSome tab_reg fields
    (fun f hf => ⟨lt_of_lt_of_le (h f hf).1 hn, (h f hf).2⟩)
  refine ⟨ms, hms, ?_⟩
  rw [List.forall₂_map_left_iff]
  exact spec_members_keys tab_reg fields ms hms

theorem modbus_read_registers_length (m : Meter) (addr nb : Nat) (w : List Reg)
    (h : modbus_read_registers m addr nb = some w) : w.length = nb := by
  unfold modbus_read_registers at h
  split at h
  · exact absurd h (by simp)
  · simp only [Option.some.injEq] at h
    rw [← h]
    simp

theorem modbus_read_registers_ok (m : Meter) (addr nb : Nat) (h : m.fails addr = false) :
    ∃ w : List Reg, modbus_read_registers m addr nb = some w ∧ w.length = nb := by
  refine ⟨(List.range nb).map fun i => m.holding (addr + i), ?_, by simp⟩
  simp [modbus_read_registers, h]

theorem dds_fields_bound :
    ∀ f ∈ spec_dds_fields, spec_last_reg f < 18 ∧ f.key.utf8ByteSize ≤ 200 := by decide

theorem dts_fields_00_bound :
    ∀ f ∈ spec_dts_fields_00, spec_last_reg f < 18 ∧ f.key.utf8ByteSize ≤ 200 := by decide

theorem dts_fields_80_bound :
    ∀ f ∈ spec_dts_fields_80, spec_last_reg f < 25 ∧ f.key.utf8ByteSize ≤ 200 := by decide

theorem ask_meter_text_some (tab_reg : List Reg) (ts : String) (h : 18 ≤ tab_reg.length) :
    ∃ text : String, ask_meter_text tab_reg ts = some text := by
  obtain ⟨_, _, _, _, _, _, _, _, _, _, htext, _⟩ := spec_members_dds tab_reg h
  exact ⟨_, htext ts⟩

theorem decode_00_some (tab_reg : List Reg) (h : 22 ≤ tab_reg.length) :
    ∃ ms rate text, spec_members spec_dts_fields_00 tab_reg = some ms ∧
      List.Forall₂ is_member_of dts_keys_00 ms ∧
      (∀ flags : Reg, tab_reg[0x15]? = some flags →
        baud_rates[flags.val % 8]? = some rate ∧
        text = ("\"baud_rate\":\"" ++ rate ++ "\",") ++
          ("\"comm_addr\":" ++ toString (flags.val / 256) ++ ",")) ∧
      ∀ json : String, decode_00 tab_reg json = some (json ++ String.join ms ++ text) := by
  obtain ⟨ms, hms, hkeys⟩ :=
    spec_members_of_bound tab_reg spec_dts_fields_00 18 (by omega) dts_fields_00_bound
  obtain ⟨flags, hf, hflags, hdec⟩ := decode_00_eq tab_reg h
  refine ⟨ms, baud_rates.get ⟨flags.val % 8, hf⟩,
    ("\"baud_rate\":\"" ++ baud_rates.get ⟨flags.val % 8, hf⟩ ++ "\",") ++
      ("\"comm_addr\":" ++ toString (flags.val / 256) ++ ","), hms, hkeys, ?_, ?_⟩
  · intro flags' hflags'
    rw [hflags] at hflags'
    simp only [Option.some.injEq] at hflags'
    subst hflags'
    exact ⟨by rw [List.getElem?_eq_getElem hf]; rfl, rfl⟩
  · intro json
    rw [hdec, hms]
    simp only [Option.map_some', String.append_assoc]

theorem decode_80_some (tab_reg : List Reg) (json : String) (h : 25 ≤ tab_reg.length) :
    ∃ ms, spec_members spec_dts_fields_80 tab_reg = some ms ∧
      List.Forall₂ is_member_of dts_keys_80 ms ∧
      decode_80 tab_reg json = some (json ++ String.join ms) := by
  obtain ⟨ms, hms, hkeys⟩ :=
    spec_members_of_bound tab_reg spec_dts_fields_80 25 h dts_fields_80_bound
  refine ⟨ms, hms, hkeys, ?_⟩
  rw [decode_80_eq tab_reg json h, hms]
  rfl

/-! ## The read loop of the three-phase program -/

theorem read_loop_ok (m : Meter) (w0 w1 : List Reg) (j1 j2 : String)
    (h0 : modbus_read_registers m 0 0x20 = some w0)
    (h1 : modbus_read_registers m 128 0x20 = some w1)
    (d0 : decode_00 w0 "\x7b" = some j1) (d1 : decode_80 w1 j1 = some j2) :
    read_loop m 0 "\x7b" [] = some ⟨false, j2, [(0, 0x20), (128, 0x20)]⟩ := by
  rw [read_loop]
  simp only [Nat.zero_lt_succ, Nat.ofNat_pos, dite_true, h0, decode_window, if_true, d0,
    and_then_some, List.nil_append]
  rw [read_loop]
  simp only [show (0 + 128 : Nat) < 192 by norm_num, dite_true, Nat.zero_add, h1, decode_window,
    show ¬ (0 = 128) by norm_num, if_false, if_true, d1, and_then_some, List.cons_append,
    List.nil_append]
  rw [read_loop]
  simp

/-- C9: when no read fails, the read loop of the three-phase program requests exactly
two reads of 0x20 registers, at 0x00 and then at 0x80; the iteration at 0x00
writes the members total_energy, reversing_energy, forward_energy, frequency,
then baud_rate and comm_addr, and the iteration at 0x80 writes the 22 members
voltage_A to pfact_C, in schema order. -/
theorem read_loop_two_windows (m : Meter) (h : ∀ addr, m.fails addr = false) :
    ∃ (w0 w1 : List Reg) (ms0 ms1 : List String) (flags_text : String),
      modbus_read_registers m 0x00 0x20 = some w0 ∧
      modbus_read_registers m 0x80 0x20 = some w1 ∧
      spec_members spec_dts_fields_00 w0 = some ms0 ∧
      List.Forall₂ is_member_of dts_keys_00 ms0 ∧
      (∃ (rate : String) (addr : Nat), flags_text =
        ("\"baud_rate\":\"" ++ rate ++ "\",") ++ ("\"comm_addr\":" ++ toString addr ++ ",")) ∧
      spec_members spec_dts_fields_80 w1 = some ms1 ∧
      List.Forall₂ is_member_of dts_keys_80 ms1 ∧
      (∀ json : String,
        decode_window 0x00 w0 json = some (json ++ String.join ms0 ++ flags_text)) ∧
      (∀ json : String, decode_window 0x80 w1 json = some (json ++ String.join ms1)) ∧
      (read_loop m 0 "\x7b" []).map (fun out => (out.failed, out.json, out.reads)) =
        some (false, "\x7b" ++ String.join ms0 ++ flags_text ++ String.join ms1,
          [(0x00, 0x20), (0x80, 0x20)]) := by
  obtain ⟨w0, hw0, hl0⟩ := modbus_read_registers_ok m 0 0x20 (h 0)
  obtain ⟨w1, hw1, hl1⟩ := modbus_read_registers_ok m 0x80 0x20 (h 0x80)
  obtain ⟨ms0, rate, text, hms0, hk0, hflags, hd0⟩ := decode_00_some w0 (by omega)
  obtain ⟨ms1, hms1, hk1, hd1⟩ :=
    decode_80_some w1 ("\x7b" ++ String.join ms0 ++ text) (by omega)
  have hf : ∃ flags : Reg, w0[0x15]? = some flags :=
    ⟨_, List.getElem?_eq_getElem (show 0x15 < w0.length by omega)⟩
  obtain ⟨flags, hfl⟩ := hf
  refine ⟨w0, w1, ms0, ms1, text, hw0, hw1, hms0, hk0, ⟨rate, flags.val / 256, (hflags flags hfl).2⟩,
    hms1, hk1, ?_, ?_, ?_⟩
  · intro json
    simp only [decode_window, if_true]
    exact hd0 json
  · intro json
    obtain ⟨ms1', hms1', _, hd1'⟩ := decode_80_some w1 json (by omega)
    rw [hms1] at hms1'
    simp only [Option.some.injEq] at hms1'
    subst hms1'
    simp only [decode_window, show ¬ (0 = 128) by norm_num, if_false, if_true]
    exact hd1'
  · rw [read_loop_ok m w0 w1 _ _ hw0 hw1 (hd0 "\x7b") hd1]
    rfl

theorem read_loop_two_windows_witness :
    (read_loop sample_meter 0 "\x7b" []).map (fun out => out.reads) = some [(0x00, 0x20), (0x80, 0x20)] := by
  obtain ⟨w0, w1, ms0, ms1, ft, _, _, _, _, _, _, _, _, _, hloop⟩ :=
    read_loop_two_windows sample_meter (fun _ => rfl)
  cases hrun : read_loop sample_meter 0 "\x7b" [] with
  | none => rw [hrun] at hloop; simp at hloop
  | some out =>
    rw [hrun] at hloop
    simp only [Option.map_some', Option.some.injEq, Prod.mk.injEq] at hloop ⊢
    exact hloop.2.2

/-! ## Totality of the two programs -/

theorem ask_meter_some (p : Poll) (fs : FS) : ∃ r, ask_meter p fs = some r := by
  unfold ask_meter
  cases hread : modbus_read_registers p.meter 0 0x15 with
  | none => exact ⟨_, rfl⟩
  | some tab_reg =>
    have hlen := modbus_read_registers_length _ _ _ _ hread
    obtain ⟨text, htext⟩ := ask_meter_text_some tab_reg (strftime_ts p.tm) (by omega)
    simp only [htext, and_then_some]
    cases p.fopen_ok <;> cases p.rename_ok <;> simp

theorem read_loop_some (m : Meter) : ∃ out, read_loop m 0 "\x7b" [] = some out := by
  rw [read_loop]
  simp only [Nat.zero_lt_succ, Nat.ofNat_pos, dite_true, List.nil_append]
  cases h0 : modbus_read_registers m 0 0x20 with
  | none => exact ⟨_, rfl⟩
  | some w0 =>
    have hl0 := modbus_read_registers_length _ _ _ _ h0
    obtain ⟨ms0, rate, text, _, _, _, hd0⟩ := decode_00_some w0 (by omega)
    simp only [decode_window, if_true, hd0 "\x7b", and_then_some]
    rw [read_loop]
    simp only [show (0 + 128 : Nat) < 192 by norm_num, dite_true, Nat.zero_add]
    cases h1 : modbus_read_registers m 128 0x20 with
    | none => exact ⟨_, rfl⟩
    | some w1 =>
      have hl1 := modbus_read_registers_length _ _ _ _ h1
      obtain ⟨ms1, _, _, hd1⟩ := decode_80_some w1 ("\x7b" ++ String.join ms0 ++ text) (by omega)
      simp only [decode_window, show ¬ (0 = 128) by norm_num, if_false, if_true, hd1,
        and_then_some]
      rw [read_loop]
      simp

theorem main_dts_some (env : Run3) (fs : FS) : ∃ out, main_dts env fs = some out := by
  obtain ⟨out, hout⟩ := read_loop_some env.meter
  unfold main_dts
  simp only [hout, and_then_some]
  cases env.new_rtu_ok <;> cases env.set_slave_ok <;> cases env.connect_ok <;>
    cases env.fopen_ok <;> cases out.failed <;> simp

/-- C10: every register that the decode steps read lies inside the window just
read, so no lookup is undefined: the single-meter text is defined on every window
of at least 18 registers (21 are read), the members of the window at 0x00 on at
least 22 and those of the window at 0x80 on at least 25 (32 are read), the table
index `flags & 7` is below 8 for every register value, and so both programs are
defined on every input.  Windows one register shorter leave a lookup undefined. -/
theorem lookups_inside_window :
    (∀ (tab_reg : List Reg) (ts : String), 18 ≤ tab_reg.length →
        ∃ text, ask_meter_text tab_reg ts = some text) ∧
      (∀ (tab_reg : List Reg) (json : String), 22 ≤ tab_reg.length →
        ∃ text, decode_00 tab_reg json = some text) ∧
      (∀ (tab_reg : List Reg) (json : String), 25 ≤ tab_reg.length →
        ∃ text, decode_80 tab_reg json = some text) ∧
      (∀ flags : Reg, flags.val &&& 7 < 8 ∧ ∃ rate, baud_rates[flags.val &&& 7]? = some rate) ∧
      (∀ (m : Meter) (addr nb : Nat) (w : List Reg),
        modbus_read_registers m addr nb = some w → w.length = nb) ∧
      (∀ (p : Poll) (fs : FS), ∃ r, ask_meter p fs = some r) ∧
      (∀ (env : Run3) (fs : FS), ∃ out, main_dts env fs = some out) ∧
      ask_meter_text (List.replicate 17 0) "" = none ∧
      decode_00 (List.replicate 21 0) "" = none ∧
      decode_80 (List.replicate 24 0) "" = none := by
  refine ⟨ask_meter_text_some, ?_, ?_, ?_, modbus_read_registers_length, ask_meter_some,
    main_dts_some, by decide, by decide, by decide⟩
  · intro tab_reg json h
    obtain ⟨ms, rate, text, _, _, _, hd⟩ := decode_00_some tab_reg h
    exact ⟨_, hd json⟩
  · intro tab_reg json h
    obtain ⟨ms, _, _, hd⟩ := decode_80_some tab_reg json h
    exact ⟨_, hd⟩
  · intro flags
    have hand : flags.val &&& 7 = flags.val % 8 := Nat.and_pow_two_sub_one_eq_mod flags.val 3
    have hlt : flags.val % 8 < baud_rates.length := Nat.mod_lt _ (by norm_num)
    rw [hand]
    exact ⟨Nat.mod_lt _ (by norm_num), _, List.getElem?_eq_getElem hlt⟩

theorem lookups_inside_window_witness :
    18 ≤ sample_window.length ∧ ∃ text, ask_meter_text sample_window "" = some text :=
  ⟨by decide, lookups_inside_window.1 sample_window "" (by decide)⟩

/-! ## The flags register -/

/-- C6: for every value `flags` of register 0x15 of the window at 0x00 whose low
byte is at most 7, the text written for that window ends with the member
baud_rate holding the entry of the table "unknown", "9600", "4800", "2400",
"1200", "5???", "6???", "7???" at the index given by the low byte, and the
member comm_addr holding the high byte `flags / 256`, which is below 256. -/
theorem flags_members (tab_reg : List Reg) (json : String) (flags : Reg)
    (hlen : tab_reg.length = 32) (hreg : tab_reg[0x15]? = some flags)
    (hlow : flags.val % 256 ≤ 7) :
    ∃ (rate before : String),
      ["unknown", "9600", "4800", "2400", "1200", "5???", "6???", "7???"][flags.val % 256]? =
        some rate ∧
      decode_00 tab_reg json =
        some (before ++ (("\"baud_rate\":\"" ++ rate ++ "\",") ++
          ("\"comm_addr\":" ++ toString (flags.val / 256) ++ ","))) ∧
      flags.val / 256 < 256 := by
  obtain ⟨ms, rate, text, _, _, hflags, hd⟩ := decode_00_some tab_reg (by omega)
  obtain ⟨hrate, htext⟩ := hflags flags hreg
  have hmod : flags.val % 256 = flags.val % 8 := by omega
  refine ⟨rate, json ++ String.join ms, by rw [hmod]; exact hrate, ?_, ?_⟩
  · rw [hd json, htext]
  · have := flags.isLt
    omega

theorem flags_members_witness :
    ∃ before : String,
      decode_00 ((List.range 32).map fun i => sample_meter.holding i) "" =
        some (before ++ "\"baud_rate\":\"5???\",\"comm_addr\":1,") := by
  obtain ⟨rate, before, hrate, hdec, _⟩ :=
    flags_members ((List.range 32).map fun i => sample_meter.holding i) "" 0x0105
      (by decide) (by decide) (by decide)
  have hr : rate = "5???" := by
    have h5 : ["unknown", "9600", "4800", "2400", "1200", "5???", "6???", "7???"][
        (0x0105 : Reg).val % 256]? = some "5???" := by decide
    rw [h5] at hrate
    exact (Option.some.inj hrate).symm
  subst hr
  exact ⟨before, hdec⟩

/-! ## The snapshot after a failed read -/

theorem read_loop_fail_00 (m : Meter) (h : m.fails 0 = true) :
    read_loop m 0 "\x7b" [] = some ⟨true, "\x7b", [(0, 0x20)]⟩ := by
  rw [read_loop]
  simp [modbus_read_registers, h]

theorem read_loop_fail_80 (m : Meter) (w0 : List Reg) (j1 : String)
    (h0 : modbus_read_registers m 0 0x20 = some w0) (d0 : decode_00 w0 "\x7b" = some j1)
    (h : m.fails 128 = true) :
    read_loop m 0 "\x7b" [] = some ⟨true, j1, [(0, 0x20), (128, 0x20)]⟩ := by
  rw [read_loop]
  simp only [Nat.zero_lt_succ, Nat.ofNat_pos, dite_true, h0, decode_window, if_true, d0,
    and_then_some, List.nil_append]
  rw [read_loop]
  simp [modbus_read_registers, h]

/-- C5 on the code: after a failed register read the single-meter program leaves the
snapshot as it was, but the three-phase program, which opens the snapshot for
writing before its first read, leaves it truncated to an opening brace when the
read at 0x00 fails, and holding the brace and the members of the window at 0x00
when the read at 0x80 fails. -/
theorem snapshot_after_failed_read :
    (ask_meter dead_poll old_fs).map (fun r => (r.1, r.2 snapshot_path)) =
        some (-1, some "OLD") ∧
      (main_dts ⟨true, true, true, true, dead_meter, sample_tm⟩ old_fs).map
          (fun out => (out.status, out.fs snapshot_path, out.reads)) =
        some (-1, some "\x7b", [(0x00, 0x20)]) ∧
      (main_dts ⟨true, true, true, true, half_dead_meter, sample_tm⟩ old_fs).map
          (fun out => (out.status, out.fs snapshot_path, out.reads)) =
        some (-1, some ("\x7b\"total_energy\":0.000,\"reversing_energy\":0.000," ++
          "\"forward_energy\":0.000,\"frequency\":0.000,\"baud_rate\":\"unknown\"," ++
          "\"comm_addr\":0,"), [(0x00, 0x20), (0x80, 0x20)]) := by
  refine ⟨by decide, ?_, ?_⟩
  · unfold main_dts
    simp only [Bool.not_true, Bool.false_eq_true, if_false]
    rw [read_loop_fail_00 dead_meter rfl]
    simp [FS.set]
  · unfold main_dts
    simp only [Bool.not_true, Bool.false_eq_true, if_false]
    rw [read_loop_fail_80 half_dead_meter ((List.range 0x20).map fun _ => 0)
      ("\x7b\"total_energy\":0.000,\"reversing_energy\":0.000," ++
        "\"forward_energy\":0.000,\"frequency\":0.000,\"baud_rate\":\"unknown\"," ++
        "\"comm_addr\":0,") (by decide) (by decide) (by decide)]
    simp [FS.set]

set_option maxRecDepth 20000 in
theorem ask_meter_document_witness :
    sample_window.length = 21 ∧
      ask_meter_text sample_window (strftime_ts sample_tm) =
        some ("\x7b\"total_energy\":123.450,\"reversing_energy\":0.010," ++
          "\"forward_energy\":123.440,\"voltage\":230.000,\"current\":1.500," ++
          "\"active_power\":0.345,\"reactive_power\":-0.100,\"power_factor\":0.998," ++
          "\"frequency\":50.000,\"ts\":\"2026-10-30 12:00:00\"\x7d\n") ∧
      FlatJson dds_keys ("\x7b\"total_energy\":123.450,\"reversing_energy\":0.010," ++
          "\"forward_energy\":123.440,\"voltage\":230.000,\"current\":1.500," ++
          "\"active_power\":0.345,\"reactive_power\":-0.100,\"power_factor\":0.998," ++
          "\"frequency\":50.000,\"ts\":\"2026-10-30 12:00:00\"\x7d\n") := by
  obtain ⟨ms, text, _, _, _, htext, _, hjson, _⟩ :=
    ask_meter_document sample_window (strftime_ts sample_tm) (by decide)
  have heval : ask_meter_text sample_window (strftime_ts sample_tm) =
      some ("\x7b\"total_energy\":123.450,\"reversing_energy\":0.010," ++
          "\"forward_energy\":123.440,\"voltage\":230.000,\"current\":1.500," ++
          "\"active_power\":0.345,\"reactive_power\":-0.100,\"power_factor\":0.998," ++
          "\"frequency\":50.000,\"ts\":\"2026-10-30 12:00:00\"\x7d\n") := by decide
  have hjson := hjson ⟨sample_tm, rfl⟩
  rw [heval] at htext
  rw [← Option.some.inj htext] at hjson
  exact ⟨by decide, heval, hjson⟩

end MeterDump
